import Mathlib

set_option maxHeartbeats 1000000
set_option maxRecDepth 10000
set_option linter.unusedVariables false

/-!
Shallow embedding of the Go rules/analysis engine (the core of the repository:
board geometry, group/liberty resolver, move engine, influence estimator,
shape matcher, safety heuristic) together with theorems settling the frozen
claims about it.

Two grid representations are used:
* `Grid` (`Fin 19 × Fin 19 → StoneColor`) models the engine on boards of the
  engine value `BOARD_SIZE` (19).  Every call site of `getNeighbors` in the source
  uses the default `size = BOARD_SIZE`, so on 19×19 boards all accesses are
  in bounds and the functions are total.
* `GridL` (`List (List StoneColor)`) models arbitrary-size boards together
  with the JavaScript out-of-bounds semantics: reading `grid[y][x]` with `y`
  out of range throws (modelled as `Except.error "TypeError"`), while an
  out-of-range `x` on an existing row yields `undefined` (modelled as
  `CellVal.undef`).

The optional delegation of the source to the external Sabaki adapters
(`createBoardForMove`, `getInfluenceSummary`, `getPatternMatches`,
`getDeadStoneVertices`) is outside the specified core (spec §1, §7, §9); the
embedding models the local heuristic path, i.e. the adapters being
unavailable.
-/

namespace Komi

inductive StoneColor
  | EMPTY
  | BLACK
  | WHITE
deriving DecidableEq, Repr

open StoneColor

/-- `BOARD_SIZE = 19` from the source. -/
def BOARD_SIZE : Nat := 19

/-- A board point `(x, y)`: `x` is the column, `y` the row, both in `[0, 19)`. -/
abbrev Pos := Fin 19 × Fin 19

/-- A 19×19 grid, addressed by `(x, y)`; the source reads `grid[y][x]`. -/
abbrev Grid := Pos → StoneColor

/-- `getNeighbors x y` with the default `size = BOARD_SIZE = 19`, which is what
every call site in the source uses.  Order: left, right, up, down. -/
def getNeighbors (p : Pos) : List Pos :=
  (if h : 0 < p.1.val then
      [(⟨p.1.val - 1, Nat.lt_of_le_of_lt (Nat.sub_le _ _) p.1.isLt⟩, p.2)]
    else []) ++
  (if h : p.1.val < 18 then [(⟨p.1.val + 1, Nat.succ_lt_succ h⟩, p.2)] else []) ++
  (if h : 0 < p.2.val then
      [(p.1, ⟨p.2.val - 1, Nat.lt_of_le_of_lt (Nat.sub_le _ _) p.2.isLt⟩)]
    else []) ++
  (if h : p.2.val < 18 then [(p.1, ⟨p.2.val + 1, Nat.succ_lt_succ h⟩)] else [])

/-- Result of `checkLiberties`: the liberty flag and the traversed group. -/
structure LibResult where
  hasLiberties : Bool
  group : List Pos
deriving DecidableEq, Repr

/-- The iterative stack-based flood fill inside `checkLiberties`.  `fuel` is a
structural-recursion bound; `4 * |univ \ visited| + |stack|` strictly decreases
each step, so `1500 ≥ 4 * 361 + 1` fuel always suffices (proved below).
The head of the stack is its top; pushing the neighbor list `[n₁, n₂, …]` in order
leaves the last pushed on top, hence `pushes.reverse ++ rest`. -/
def libertyDfs (g : Grid) (color : StoneColor) :
    Nat → Finset Pos → List Pos → List Pos → Bool → LibResult
  | 0, _, _, group, hasLib => ⟨hasLib, group⟩
  | fuel + 1, visited, stack, group, hasLib =>
    match stack with
    | [] => ⟨hasLib, group⟩
    | cur :: rest =>
      if cur ∈ visited then
        libertyDfs g color fuel visited rest group hasLib
      else
        let visited2 := insert cur visited
        let ns := getNeighbors cur
        let hasLib2 := hasLib || ns.any (fun n => decide (g n = EMPTY))
        let pushes := ns.filter (fun n => decide (g n ≠ EMPTY ∧ g n = color ∧ n ∉ visited2))
        libertyDfs g color fuel visited2 (pushes.reverse ++ rest) (group ++ [cur]) hasLib2

/-- `checkLiberties(grid, x, y, color)`: flood-fills the same-colored group
seeded at `(x, y)` and reports whether any member has an `EMPTY` neighbor. -/
def checkLiberties (g : Grid) (x y : Fin 19) (color : StoneColor) : LibResult :=
  libertyDfs g color 1500 ∅ [(x, y)] [] false

/-- One step of same-colored 4-connectivity: `b` is an orthogonal neighbor of
`a` carrying color `c`. -/
def stoneStep (g : Grid) (c : StoneColor) (a b : Pos) : Prop :=
  b ∈ getNeighbors a ∧ g b = c

/-- `q` is connected to `p` through stones of color `c`. -/
def reaches (g : Grid) (c : StoneColor) (p q : Pos) : Prop :=
  Relation.ReflTransGen (stoneStep g c) p q

/-- The maximal 4-connected same-colored component containing `p`
(specification-side definition). -/
def componentSet (g : Grid) (p : Pos) : Set Pos :=
  {q | reaches g (g p) p q}

/-- The set of liberties of the component of `p`: distinct `EMPTY` points
orthogonally adjacent to some stone of the component. -/
def libertySet (g : Grid) (p : Pos) : Set Pos :=
  {n | g n = EMPTY ∧ ∃ q ∈ componentSet g p, n ∈ getNeighbors q}

/-- True liberty count of the component of `p` (specification-side). -/
noncomputable def libertyCount (g : Grid) (p : Pos) : Nat :=
  (libertySet g p).ncard

/-- The component of `p` (color `c`) has at least one liberty
(specification-side). -/
def hasGroupLiberty (g : Grid) (c : StoneColor) (p : Pos) : Prop :=
  ∃ q, reaches g c p q ∧ ∃ n ∈ getNeighbors q, g n = EMPTY

/-- Cumulative capture counts `{B, W}`. -/
structure Captures where
  B : Nat
  W : Nat
deriving DecidableEq, Repr

/-- `BoardState` from the source. -/
structure BoardState where
  grid : Grid
  captures : Captures
  lastMove : Option Pos
  koPoint : Option Pos

/-- Return value of `playMove`. -/
structure MoveResult where
  newState : BoardState
  valid : Bool
  message : Option String

/-- `color === BLACK ? WHITE : BLACK`. -/
def opponentOf (color : StoneColor) : StoneColor :=
  if color = BLACK then WHITE else BLACK

/-- The capture-scan loop of `playMove`: for each neighbor of the placed stone
holding the opposing color, resolve its group; if it has no liberties, append
the whole group to the accumulated list.  The grid is not modified during this
loop (removal happens afterwards), so a group adjacent at several neighbors is
appended once per such neighbor. -/
def capturedStonesList (g1 : Grid) (pos : Pos) (opp : StoneColor) : List Pos :=
  (getNeighbors pos).foldl
    (fun acc n =>
      if g1 n = opp then
        let result := checkLiberties g1 n.1 n.2 opp
        if result.hasLiberties then acc else acc ++ result.group
      else acc)
    []

/-- `capturedStones.forEach(s => { newGrid[s.y][s.x] = EMPTY })`. -/
def removeStones (l : List Pos) (g : Grid) : Grid :=
  l.foldl (fun gg s => Function.update gg s EMPTY) g

/-- The successful-move tail of `playMove` (the code after the rejection
checks): update the capture count of the placing color by the length of the
accumulated captured-stones list, determine the ko point (exactly when that
list has length 1 and the own resolved group of the placed stone is a singleton
with a liberty), set `lastMove`, and return validity `true` with no message. -/
def playMoveFinish (currentState : BoardState) (x y : Fin 19) (color : StoneColor)
    (capturedStones : List Pos) (newGrid : Grid) : MoveResult :=
  let newCaptures : Captures :=
    if color = BLACK then
      ⟨currentState.captures.B + capturedStones.length, currentState.captures.W⟩
    else
      ⟨currentState.captures.B, currentState.captures.W + capturedStones.length⟩
  let newKoPoint : Option Pos :=
    if capturedStones.length = 1 then
      let s := capturedStones.headD (x, y)
      let selfResult := checkLiberties newGrid x y color
      if selfResult.group.length = 1 ∧ selfResult.hasLiberties = true then some s
      else none
    else none
  ⟨⟨newGrid, newCaptures, some (x, y), newKoPoint⟩, true, none⟩

/-- `playMove` (the own rules path of the engine; the optional external-library
delegation is outside the specified core). -/
def playMove (currentState : BoardState) (x y : Fin 19) (color : StoneColor) : MoveResult :=
  if currentState.grid (x, y) ≠ EMPTY then
    ⟨currentState, false, some "Point is occupied"⟩
  else if currentState.koPoint = some (x, y) then
    ⟨currentState, false, some "Ko rule violation"⟩
  else
    let newGrid1 := Function.update currentState.grid (x, y) color
    let opponent := opponentOf color
    let capturedStones := capturedStonesList newGrid1 (x, y) opponent
    let newGrid := removeStones capturedStones newGrid1
    if capturedStones.length = 0 then
      let selfResult := checkLiberties newGrid x y color
      if selfResult.hasLiberties = false then
        ⟨currentState, false, some "Suicide move not allowed"⟩
      else playMoveFinish currentState x y color capturedStones newGrid
    else playMoveFinish currentState x y color capturedStones newGrid

/-- The string "ABCDEFGHJKLMNOPQRST" — the "I"-skipping column alphabet. -/
def gtpLetters : String := "ABCDEFGHJKLMNOPQRST"

/-- `toGtpCoordinate(x, y)`: "pass" out of the fixed 19×19 range, otherwise
`letters[x]` followed by `19 - y`. -/
def toGtpCoordinate (x y : Int) : String :=
  if x < 0 ∨ 19 ≤ x ∨ y < 0 ∨ 19 ≤ y then "pass"
  else String.singleton (gtpLetters.toList.getD x.toNat 'A') ++ toString (19 - y)

/-- Arbitrary-size list-of-rows grid, used by the renderer, the heuristics that
take `grid.length` as the size, and the out-of-bounds model. -/
abbrev GridL := List (List StoneColor)

/-- In-bounds read `grid[y][x]` (used where the access in the source is in range). -/
def cellAt (grid : GridL) (x y : Nat) : StoneColor :=
  (grid.getD y []).getD x EMPTY

/-- Renders a cell as "X ", "O " or ". ". -/
def asciiCell (s : StoneColor) : String :=
  if s = BLACK then "X " else if s = WHITE then "O " else ". "

/-- `boardToAscii`, translated statement-for-statement: header letter row,
one line per grid row numbered `size - y` on both sides, footer letter row. -/
def boardToAscii (grid : GridL) : String :=
  let size := grid.length
  let coords := gtpLetters.take size
  let header :=
    (List.range size).foldl
      (fun a i => a ++ String.singleton (coords.toList.getD i 'A') ++ " ") "   " ++ "\n"
  let withRows :=
    (List.range size).foldl
      (fun a y =>
        let rowNum := size - y
        let a1 := a ++ (if rowNum < 10 then " " else "") ++ Nat.repr rowNum ++ " "
        let a2 := (List.range size).foldl (fun b x => b ++ asciiCell (cellAt grid x y)) a1
        a2 ++ Nat.repr rowNum ++ "\n")
      header
  (List.range size).foldl
    (fun a i => a ++ String.singleton (coords.toList.getD i 'A') ++ " ") (withRows ++ "   ")

/-- Decomposition helpers used to state what `boardToAscii` produces. -/
def asciiLetterRow (size : Nat) : String :=
  (List.range size).foldl
    (fun a i => a ++ String.singleton ((gtpLetters.take size).toList.getD i 'A') ++ " ") ""

/-- The stone characters of grid row `y`. -/
def asciiCells (grid : GridL) (size y : Nat) : String :=
  (List.range size).foldl (fun b x => b ++ asciiCell (cellAt grid x y)) ""

/-- The full rendered line for grid row `y`: the row number `size - y` appears
at both ends. -/
def asciiRowLine (grid : GridL) (size y : Nat) : String :=
  (if size - y < 10 then " " else "") ++ Nat.repr (size - y) ++ " " ++
    asciiCells grid size y ++ Nat.repr (size - y) ++ "\n"

/-- Concatenation of rendered pieces, used to state the line structure of
the output of `boardToAscii`. -/
def strJoinMap {α : Type} (f : α → String) : List α → String
  | [] => ""
  | a :: t => f a ++ strJoinMap f t

/-- `ShapePattern` configuration record. -/
structure ShapePattern where
  name : String
  size : Nat
  grid : List (List Int)
  type : String
deriving DecidableEq, Repr

/-- The three built-in patterns. -/
def PATTERNS : List ShapePattern :=
  [ ⟨"Empty Triangle", 2, [[1, 1], [1, 0]], "BAD"⟩,
    ⟨"Ponnuki", 3, [[0, 1, 0], [1, 0, 1], [0, 1, 0]], "GOOD"⟩,
    ⟨"Hane at Head of Two", 3, [[0, 1, 0], [1, -1, 0], [1, -1, 0]], "GOOD"⟩ ]

/-- 90° rotation: `res[c][N-1-r] = g[r][c]`, i.e. `res[c][j] = g[N-1-j][c]`. -/
def rotateGrid (g : List (List Int)) : List (List Int) :=
  let N := g.length
  (List.range N).map fun c => (List.range N).map fun j => (g.getD (N - 1 - j) []).getD c 0

/-- `k`-fold application of `rotateGrid` (the source applies the rotation
cumulatively before each of its four scans). -/
def rotIter : Nat → List (List Int) → List (List Int)
  | 0, pg => pg
  | k + 1, pg => rotateGrid (rotIter k pg)

/-- `numGrid`: BLACK ↦ 1, WHITE ↦ -1, EMPTY ↦ 0. -/
def numGridOf (grid : GridL) : List (List Int) :=
  grid.map fun row => row.map fun c => if c = BLACK then 1 else if c = WHITE then -1 else 0

/-- Read entry `[y][x]` of a numeric grid (0 outside, as the scans stay in
bounds). -/
def numAt (numG : List (List Int)) (x y : Nat) : Int :=
  (numG.getD y []).getD x 0

/-- Color assignment: `1 ↦ colorSign`, `-1 ↦ -colorSign`, others kept. -/
def assignColor (colorSign : Int) (pg : List (List Int)) : List (List Int) :=
  pg.map fun row => row.map fun v => if v = 1 then colorSign else if v = -1 then -colorSign else v

/-- Window match test at offset `(x, y)`: every template cell other than the
wildcard `2` must equal the board cell. -/
def matchesAt (pGrid : List (List Int)) (numG : List (List Int)) (x y psize : Nat) : Bool :=
  (List.range psize).all fun py => (List.range psize).all fun px =>
    numAt pGrid px py == 2 || numAt numG (x + px) (y + py) == numAt pGrid px py

/-- `colorSign === 1 ? "Black" : "White"`. -/
def colorNameOf (colorSign : Int) : String :=
  if colorSign = 1 then "Black" else "White"

/-- The string recorded for a match whose window origin is `(x, y)`. -/
def findingString (pat : ShapePattern) (colorSign : Int) (x y : Nat) : String :=
  pat.type ++ ": " ++ colorNameOf colorSign ++ " " ++ pat.name ++ " at " ++
    toGtpCoordinate (Int.ofNat x) (Int.ofNat y)

/-- Insertion-ordered set add (the JS `Set` + `Array.from`). -/
def addFound (found : List String) (s : String) : List String :=
  if s ∈ found then found else found ++ [s]

/-- Offsets `0 … size - psize` (empty when the pattern does not fit, matching
the JS loop whose bound is negative then). -/
def windowRange (size psize : Nat) : List Nat :=
  if psize ≤ size then List.range (size - psize + 1) else []

/-- The double sliding-window scan for one (pattern, color, rotation). -/
def scanPattern (numG : List (List Int)) (size : Nat) (pat : ShapePattern)
    (pGrid : List (List Int)) (colorSign : Int) (found : List String) : List String :=
  (windowRange size pat.size).foldl
    (fun acc y =>
      (windowRange size pat.size).foldl
        (fun acc2 x =>
          if matchesAt pGrid numG x y pat.size then
            addFound acc2 (findingString pat colorSign x y)
          else acc2)
        acc)
    found

/-- The source rotates before each of the four scans, so rotations 1–4 (the
fourth being the original orientation) are scanned. -/
def scanRotations (numG : List (List Int)) (size : Nat) (pat : ShapePattern)
    (pGrid0 : List (List Int)) (colorSign : Int) (found : List String) : List String :=
  let p1 := rotateGrid pGrid0
  let p2 := rotateGrid p1
  let p3 := rotateGrid p2
  let p4 := rotateGrid p3
  scanPattern numG size pat p4 colorSign
    (scanPattern numG size pat p3 colorSign
      (scanPattern numG size pat p2 colorSign
        (scanPattern numG size pat p1 colorSign found)))

/-- `findShapesHeuristic`: all patterns, both color signs (1 then -1), four
rotations each, deduplicated in insertion order. -/
def findShapesHeuristic (grid : GridL) : List String :=
  let size := grid.length
  let numG := numGridOf grid
  PATTERNS.foldl
    (fun found pat =>
      scanRotations numG size pat (assignColor (-1) pat.grid) (-1)
        (scanRotations numG size pat (assignColor 1 pat.grid) 1 found))
    []

/-- Specification-side: the first (row-major) template offset holding a
non-empty value — the anchor the spec prescribes. -/
def firstNonEmptyOffset (pg : List (List Int)) (psize : Nat) : Option (Nat × Nat) :=
  ((List.range psize).flatMap fun py => (List.range psize).map fun px => (px, py)).find?
    (fun q => numAt pg q.1 q.2 != 0)

/-- The stone list scanned by `calculateInfluenceHeuristic`, in scan order. -/
def stonesOf (grid : GridL) : List (Nat × Nat × Int) :=
  let size := grid.length
  (List.range size).flatMap fun y => (List.range size).flatMap fun x =>
    if cellAt grid x y = BLACK then [(x, y, 1)]
    else if cellAt grid x y = WHITE then [(x, y, -1)]
    else []

/-- Per-point influence: `Σ color · w(stone, point)`.  The weight in the source is
`Math.exp(-dist/DECAY)`; the transcendental weight is abstracted as the
parameter `w`, over which the theorems quantify universally. -/
def influenceValue (w : Nat × Nat → Nat × Nat → ℚ) (stones : List (Nat × Nat × Int))
    (p : Nat × Nat) : ℚ :=
  stones.foldl (fun acc s => acc + (s.2.2 : ℚ) * w (s.1, s.2.1) p) 0

/-- `calculateInfluenceHeuristic`: counts of points with value `> 0.5`
(black) and `< -0.5` (white). -/
def calculateInfluenceHeuristic (w : Nat × Nat → Nat × Nat → ℚ) (grid : GridL) : Nat × Nat :=
  let size := grid.length
  let stones := stonesOf grid
  let points := (List.range size).flatMap fun y => (List.range size).map fun x => (x, y)
  ( points.countP fun p => decide ((1 : ℚ) / 2 < influenceValue w stones p),
    points.countP fun p => decide (influenceValue w stones p < -(1 : ℚ) / 2) )

/-- Row-major scan order of the whole 19×19 board (`y` outer, `x` inner). -/
def allPositions : List Pos :=
  (List.finRange 19).flatMap fun y => (List.finRange 19).map fun x => ((x, y) : Pos)

/-- `color === BLACK ? "Black" : "White"`. -/
def stoneName (c : StoneColor) : String :=
  if c = BLACK then "Black" else "White"

/-- `toGtpCoordinate` applied to a board point. -/
def toGtpOfPos (p : Pos) : String :=
  toGtpCoordinate (Int.ofNat p.1.val) (Int.ofNat p.2.val)

/-- The danger report line for a weak group. -/
def dangerMsg (c : StoneColor) (p : Pos) (libs : Nat) : String :=
  "DANGER: " ++ stoneName c ++ " group at " ++ toGtpOfPos p ++ " has only " ++
    toString libs ++ " liberties."

/-- The distinct empty neighbors of the stones of a group (the JS `libs` set). -/
def groupLibertiesFinset (g : Grid) (group : List Pos) : Finset Pos :=
  group.foldl
    (fun ls q => ls ∪ ((getNeighbors q).filter (fun n => decide (g n = EMPTY))).toFinset) ∅

/-- One step of the safety scan at point `p`, threading the visited set and
the report list. -/
def safetyStep (g : Grid) (acc : Finset Pos × List String) (p : Pos) :
    Finset Pos × List String :=
  if g p = EMPTY then acc
  else if p ∈ acc.1 then acc
  else
    let result := checkLiberties g p.1 p.2 (g p)
    let visited2 := acc.1 ∪ result.group.toFinset
    let libs := groupLibertiesFinset g result.group
    if libs.card ≤ 2 then
      (visited2, acc.2 ++ [dangerMsg (g p) (result.group.headD p) libs.card])
    else (visited2, acc.2)

/-- `analyzeSafetyHeuristic` on 19×19 grids. -/
def analyzeSafetyHeuristic (g : Grid) : List String :=
  (allPositions.foldl (safetyStep g) (∅, [])).2

/-- A grid from an association list of stones (unlisted points are EMPTY). -/
def gridOfStones (stones : List (Pos × StoneColor)) : Grid :=
  fun p => (stones.lookup p).getD EMPTY

/-- `createEmptyGrid(size)`. -/
def createEmptyGrid (size : Nat) : GridL :=
  List.replicate size (List.replicate size EMPTY)

/-- What a JavaScript read of `row[x]` yields: a stone or `undefined`. -/
inductive CellVal
  | stone (c : StoneColor)
  | undef
deriving DecidableEq, Repr

/-- `grid[y][x]` with JS semantics: a missing row makes the element access
throw (`TypeError`); a missing column on an existing row yields `undefined`. -/
def readCell (grid : GridL) (x y : Nat) : Except String CellVal :=
  match grid[y]? with
  | none => Except.error "TypeError"
  | some row =>
    match row[x]? with
    | some c => Except.ok (CellVal.stone c)
    | none => Except.ok CellVal.undef

/-- `getNeighbors` over plain naturals with an explicit `size` (all call sites
in the source pass nothing, i.e. use 19). -/
def getNeighborsDyn (x y size : Nat) : List (Nat × Nat) :=
  (if 0 < x then [(x - 1, y)] else []) ++
  (if x < size - 1 then [(x + 1, y)] else []) ++
  (if 0 < y then [(x, y - 1)] else []) ++
  (if y < size - 1 then [(x, y + 1)] else [])

/-- The flood fill with JS out-of-bounds semantics; neighbor enumeration uses
the default size 19 exactly as `checkLiberties` does. -/
def libertyDfsDyn (grid : GridL) (color : StoneColor) :
    Nat → List (Nat × Nat) → List (Nat × Nat) → List (Nat × Nat) → Bool →
      Except String (Bool × List (Nat × Nat))
  | 0, _, _, group, hasLib => Except.ok (hasLib, group)
  | fuel + 1, visited, stack, group, hasLib =>
    match stack with
    | [] => Except.ok (hasLib, group)
    | cur :: rest =>
      if cur ∈ visited then libertyDfsDyn grid color fuel visited rest group hasLib
      else
        let visited2 := visited ++ [cur]
        do
          let st ← (getNeighborsDyn cur.1 cur.2 19).foldlM
            (fun (st : Bool × List (Nat × Nat)) n => do
              let v ← readCell grid n.1 n.2
              if v = CellVal.stone EMPTY then pure (true, st.2)
              else if v = CellVal.stone color ∧ n ∉ visited2 then pure (st.1, st.2 ++ [n])
              else pure st)
            (hasLib, [])
          libertyDfsDyn grid color fuel visited2 (st.2.reverse ++ rest) (group ++ [cur]) st.1

/-- `checkLiberties` with JS out-of-bounds semantics. -/
def checkLibertiesDyn (grid : GridL) (x y : Nat) (color : StoneColor) :
    Except String (Bool × List (Nat × Nat)) :=
  libertyDfsDyn grid color 1500 [] [(x, y)] [] false

/-- In-bounds write `grid[y][x] = c`. -/
def setCell (grid : GridL) (x y : Nat) (c : StoneColor) : GridL :=
  grid.set y ((grid.getD y []).set x c)

/-- Arbitrary-size board state for the out-of-bounds model. -/
structure BoardStateDyn where
  grid : GridL
  capturesB : Nat
  capturesW : Nat
  lastMove : Option (Nat × Nat)
  koPoint : Option (Nat × Nat)
deriving DecidableEq, Repr

/-- Return value of `playMoveDyn` when no exception is thrown. -/
structure MoveResultDyn where
  newState : BoardStateDyn
  valid : Bool
  message : Option String
deriving DecidableEq, Repr

/-- `playMove` with JS out-of-bounds semantics on an arbitrary-size grid;
`Except.error` models the function throwing. -/
def playMoveDyn (st : BoardStateDyn) (x y : Nat) (color : StoneColor) :
    Except String MoveResultDyn := do
  let v0 ← readCell st.grid x y
  if v0 ≠ CellVal.stone EMPTY then
    return ⟨st, false, some "Point is occupied"⟩
  if st.koPoint = some (x, y) then
    return ⟨st, false, some "Ko rule violation"⟩
  let newGrid1 := setCell st.grid x y color
  let opponent := opponentOf color
  let captured ← (getNeighborsDyn x y 19).foldlM
    (fun (acc : List (Nat × Nat)) n => do
      let v ← readCell newGrid1 n.1 n.2
      if v = CellVal.stone opponent then
        let r ← checkLibertiesDyn newGrid1 n.1 n.2 opponent
        if r.1 then pure acc else pure (acc ++ r.2)
      else pure acc)
    []
  let newGrid := captured.foldl (fun g s => setCell g s.1 s.2 EMPTY) newGrid1
  if captured.length = 0 then
    let selfR ← checkLibertiesDyn newGrid x y color
    if selfR.1 = false then
      return ⟨st, false, some "Suicide move not allowed"⟩
  let newCaps : Nat × Nat :=
    if color = BLACK then (st.capturesB + captured.length, st.capturesW)
    else (st.capturesB, st.capturesW + captured.length)
  let newKo : Option (Nat × Nat) ←
    if captured.length = 1 then do
      let selfR ← checkLibertiesDyn newGrid x y color
      if selfR.2.length = 1 ∧ selfR.1 = true then pure (some (captured.headD (x, y)))
      else pure none
    else pure none
  return ⟨⟨newGrid, newCaps.1, newCaps.2, some (x, y), newKo⟩, true, none⟩

/-- The JS `libs` set computation of the safety heuristic, with out-of-bounds
reads modelled. -/
def libsDyn (grid : GridL) (group : List (Nat × Nat)) : Except String (List (Nat × Nat)) :=
  group.foldlM
    (fun ls s =>
      (getNeighborsDyn s.1 s.2 19).foldlM
        (fun ls2 n => do
          let v ← readCell grid n.1 n.2
          if v = CellVal.stone EMPTY ∧ n ∉ ls2 then pure (ls2 ++ [n]) else pure ls2)
        ls)
    []

/-- Danger line in the dynamic model. -/
def dangerMsgDyn (c : StoneColor) (p : Nat × Nat) (libs : Nat) : String :=
  "DANGER: " ++ stoneName c ++ " group at " ++
    toGtpCoordinate (Int.ofNat p.1) (Int.ofNat p.2) ++ " has only " ++
    toString libs ++ " liberties."

/-- `analyzeSafetyHeuristic` with JS out-of-bounds semantics on an
arbitrary-size grid. -/
def analyzeSafetyHeuristicDyn (grid : GridL) : Except String (List String) := do
  let size := grid.length
  let final ← (List.range size).foldlM
    (fun (st : List (Nat × Nat) × List String) y =>
      (List.range size).foldlM
        (fun (st2 : List (Nat × Nat) × List String) x => do
          let c := cellAt grid x y
          if c = EMPTY then pure st2
          else if (x, y) ∈ st2.1 then pure st2
          else do
            let r ← checkLibertiesDyn grid x y c
            let visited2 := st2.1 ++ r.2
            let libs ← libsDyn grid r.2
            if libs.length ≤ 2 then
              pure (visited2, st2.2 ++ [dangerMsgDyn c (r.2.headD (x, y)) libs.length])
            else pure (visited2, st2.2))
        st)
    ([], [])
  return final.2

/-- C1 failing input: the white group {(0,0),(1,0),(1,1)} touches the point
(0,1) at two of its neighbors, surrounded so that BLACK playing (0,1) captures
it. -/
def captureStateC1 : BoardState :=
  ⟨gridOfStones
      [ (((0 : Fin 19), (0 : Fin 19)), WHITE), (((1 : Fin 19), (0 : Fin 19)), WHITE),
        (((1 : Fin 19), (1 : Fin 19)), WHITE), (((2 : Fin 19), (0 : Fin 19)), BLACK),
        (((2 : Fin 19), (1 : Fin 19)), BLACK), (((1 : Fin 19), (2 : Fin 19)), BLACK) ],
    ⟨0, 0⟩, none, none⟩

/-- Single-stone-capture ko shape: WHITE (1,1) surrounded by BLACK on three
sides; BLACK plays (1,2). -/
def koState : BoardState :=
  ⟨gridOfStones
      [ (((1 : Fin 19), (1 : Fin 19)), WHITE), (((1 : Fin 19), (0 : Fin 19)), BLACK),
        (((0 : Fin 19), (1 : Fin 19)), BLACK), (((2 : Fin 19), (1 : Fin 19)), BLACK) ],
    ⟨0, 0⟩, none, none⟩

/-- A state whose `koPoint` is the empty point (2,2). -/
def koRejectState : BoardState :=
  ⟨gridOfStones [], ⟨0, 0⟩, none, some ((2 : Fin 19), (2 : Fin 19))⟩

/-- A state with a stone on (3,3), for the occupied-rejection witness. -/
def occupiedState : BoardState :=
  ⟨gridOfStones [(((3 : Fin 19), (3 : Fin 19)), BLACK)], ⟨0, 0⟩, none, none⟩

/-- A lone black stone at (5,5). -/
def loneStoneGrid : Grid :=
  gridOfStones [(((5 : Fin 19), (5 : Fin 19)), BLACK)]

/-- A lone black stone in the corner (0,0): exactly two liberties. -/
def cornerStoneGrid : Grid :=
  gridOfStones [(((0 : Fin 19), (0 : Fin 19)), BLACK)]

/-- A 3×3 board holding exactly a black ponnuki. -/
def ponnukiGrid3 : GridL :=
  [ [EMPTY, BLACK, EMPTY], [BLACK, EMPTY, BLACK], [EMPTY, BLACK, EMPTY] ]

/-- A 5×5 board with one black stone on the bottom edge (0,4). -/
def edgeStoneGrid5 : GridL :=
  setCell (createEmptyGrid 5) 0 4 BLACK

/-- An empty 5×5 board state for the dynamic model. -/
def emptyState5 : BoardStateDyn :=
  ⟨createEmptyGrid 5, 0, 0, none, none⟩

/-! ### Board-geometry lemmas -/

theorem mem_getNeighbors {p q : Pos} :
    q ∈ getNeighbors p ↔
      ((q.1.val + 1 = p.1.val ∧ q.2.val = p.2.val) ∨
       (p.1.val + 1 = q.1.val ∧ q.2.val = p.2.val) ∨
       (q.2.val + 1 = p.2.val ∧ q.1.val = p.1.val) ∨
       (p.2.val + 1 = q.2.val ∧ q.1.val = p.1.val)) := by
  have hb1 := p.1.isLt
  have hb2 := p.2.isLt
  have hb3 := q.1.isLt
  have hb4 := q.2.isLt
  simp only [getNeighbors, List.mem_append]
  split_ifs <;>
    simp only [List.mem_singleton, List.not_mem_nil, Prod.ext_iff, Fin.ext_iff,
      or_false, false_or] <;>
    omega

theorem getNeighbors_symm {p q : Pos} (h : q ∈ getNeighbors p) : p ∈ getNeighbors q := by
  rw [mem_getNeighbors] at h ⊢
  omega

theorem getNeighbors_length_le (p : Pos) : (getNeighbors p).length ≤ 4 := by
  unfold getNeighbors
  split_ifs <;> simp

theorem getNeighbors_nodup (p : Pos) : (getNeighbors p).Nodup := by
  have hb1 := p.1.isLt
  have hb2 := p.2.isLt
  unfold getNeighbors
  split_ifs <;>
    simp [List.nodup_append, List.disjoint_left, Prod.ext_iff, Fin.ext_iff] <;>
    omega

/-! ### Connectivity lemmas -/

theorem reaches_color {g : Grid} {c : StoneColor} {p q : Pos}
    (hp : g p = c) (h : reaches g c p q) : g q = c := by
  induction h with
  | refl => exact hp
  | tail _ hstep _ => exact hstep.2

theorem reaches_trans {g : Grid} {c : StoneColor} {p q r : Pos}
    (h1 : reaches g c p q) (h2 : reaches g c q r) : reaches g c p r :=
  Relation.ReflTransGen.trans h1 h2

theorem reaches_symm {g : Grid} {c : StoneColor} {p q : Pos}
    (hp : g p = c) (h : reaches g c p q) : reaches g c q p := by
  induction h with
  | refl => exact Relation.ReflTransGen.refl
  | tail hpa hstep ih =>
    exact Relation.ReflTransGen.head ⟨getNeighbors_symm hstep.1, reaches_color hp hpa⟩ ih

theorem mem_componentSet_self (g : Grid) (p : Pos) : p ∈ componentSet g p :=
  Relation.ReflTransGen.refl

theorem componentSet_color {g : Grid} {p q : Pos} (h : q ∈ componentSet g p) : g q = g p :=
  reaches_color rfl h

theorem componentSet_eq_of_mem {g : Grid} {p q : Pos} (h : q ∈ componentSet g p) :
    componentSet g q = componentSet g p := by
  have hq : g q = g p := componentSet_color h
  ext z
  simp only [componentSet, Set.mem_setOf_eq, hq]
  exact ⟨fun hz => reaches_trans h hz, fun hz => reaches_trans (reaches_symm rfl h) hz⟩

theorem libertySet_eq_of_mem {g : Grid} {p q : Pos} (h : q ∈ componentSet g p) :
    libertySet g q = libertySet g p := by
  unfold libertySet
  rw [componentSet_eq_of_mem h]

theorem libertyCount_eq_of_mem {g : Grid} {p q : Pos} (h : q ∈ componentSet g p) :
    libertyCount g q = libertyCount g p := by
  unfold libertyCount
  rw [libertySet_eq_of_mem h]

/-! ### Flood-fill correctness -/

theorem libertyDfs_terminal_aux (g : Grid) (c : StoneColor) (s : Pos)
    (visited : Finset Pos) (group : List Pos) (hasLib : Bool)
    (hnd : group.Nodup)
    (hgv : ∀ q : Pos, q ∈ group ↔ q ∈ visited)
    (hvis : ∀ v ∈ visited, g v = c ∧ reaches g c s v)
    (hclosed : ∀ v ∈ visited, ∀ n ∈ getNeighbors v, g n = c → n ∈ visited)
    (hlib : hasLib = true ↔ ∃ v ∈ visited, ∃ n ∈ getNeighbors v, g n = EMPTY)
    (hcover : s ∈ visited) :
    group.Nodup ∧ (∀ q : Pos, q ∈ group ↔ reaches g c s q) ∧
      (hasLib = true ↔ ∃ q, reaches g c s q ∧ ∃ n ∈ getNeighbors q, g n = EMPTY) := by
  have hcomplete : ∀ q : Pos, reaches g c s q → q ∈ visited := by
    intro q hq
    induction hq with
    | refl => exact hcover
    | tail _ hstep ih => exact hclosed _ ih _ hstep.1 hstep.2
  refine ⟨hnd, ?_, ?_⟩
  · intro q
    rw [hgv]
    exact ⟨fun hv => (hvis q hv).2, fun hr => hcomplete q hr⟩
  · rw [hlib]
    constructor
    · rintro ⟨v, hv, n, hn, he⟩
      exact ⟨v, (hvis v hv).2, n, hn, he⟩
    · rintro ⟨q, hq, n, hn, he⟩
      exact ⟨q, hcomplete q hq, n, hn, he⟩

theorem libertyDfs_spec (g : Grid) (c : StoneColor) (hcE : c ≠ EMPTY) (s : Pos) :
    ∀ (fuel : Nat) (visited : Finset Pos) (stack group : List Pos) (hasLib : Bool),
      4 * ((Finset.univ : Finset Pos) \ visited).card + stack.length ≤ fuel →
      group.Nodup →
      (∀ q : Pos, q ∈ group ↔ q ∈ visited) →
      (∀ v ∈ visited, g v = c ∧ reaches g c s v) →
      (∀ t ∈ stack, g t = c ∧ reaches g c s t) →
      (∀ v ∈ visited, ∀ n ∈ getNeighbors v, g n = c → n ∈ visited ∨ n ∈ stack) →
      (hasLib = true ↔ ∃ v ∈ visited, ∃ n ∈ getNeighbors v, g n = EMPTY) →
      (s ∈ visited ∨ s ∈ stack) →
      ((libertyDfs g c fuel visited stack group hasLib).group.Nodup ∧
       (∀ q : Pos, q ∈ (libertyDfs g c fuel visited stack group hasLib).group ↔
          reaches g c s q) ∧
       ((libertyDfs g c fuel visited stack group hasLib).hasLiberties = true ↔
          ∃ q, reaches g c s q ∧ ∃ n ∈ getNeighbors q, g n = EMPTY)) := by
  intro fuel
  induction fuel with
  | zero =>
    intro visited stack group hasLib hfuel hnd hgv hvis hstk hclosed hlib hcover
    have hstack : stack = [] := by
      cases stack with
      | nil => rfl
      | cons a t => simp at hfuel
    subst hstack
    simp only [libertyDfs]
    exact libertyDfs_terminal_aux g c s visited group hasLib hnd hgv hvis
      (fun v hv n hn hc => ((hclosed v hv n hn hc).elim id (fun h => absurd h (List.not_mem_nil n))))
      hlib (hcover.elim id (fun h => absurd h (List.not_mem_nil s)))
  | succ fuel ih =>
    intro visited stack group hasLib hfuel hnd hgv hvis hstk hclosed hlib hcover
    match stack with
    | [] =>
      simp only [libertyDfs]
      exact libertyDfs_terminal_aux g c s visited group hasLib hnd hgv hvis
        (fun v hv n hn hc => ((hclosed v hv n hn hc).elim id (fun h => absurd h (List.not_mem_nil n))))
        hlib (hcover.elim id (fun h => absurd h (List.not_mem_nil s)))
    | cur :: rest =>
      simp only [libertyDfs]
      by_cases hcv : cur ∈ visited
      · rw [if_pos hcv]
        refine ih visited rest group hasLib ?_ hnd hgv hvis
          (fun t ht => hstk t (List.mem_cons_of_mem cur ht)) ?_ hlib ?_
        · simp only [List.length_cons] at hfuel
          omega
        · intro v hv n hn hc
          rcases hclosed v hv n hn hc with h | h
          · exact Or.inl h
          · rcases List.mem_cons.mp h with h | h
            · exact Or.inl (h ▸ hcv)
            · exact Or.inr h
        · rcases hcover with h | h
          · exact Or.inl h
          · rcases List.mem_cons.mp h with h | h
            · exact Or.inl (h ▸ hcv)
            · exact Or.inr h
      · rw [if_neg hcv]
        have hcur := hstk cur (List.mem_cons_self cur rest)
        have hcurU : cur ∈ (Finset.univ : Finset Pos) \ visited := by
          simp [hcv]
        have hcard : ((Finset.univ : Finset Pos) \ insert cur visited).card + 1 =
            ((Finset.univ : Finset Pos) \ visited).card := by
          have : (Finset.univ : Finset Pos) \ insert cur visited =
              ((Finset.univ : Finset Pos) \ visited).erase cur := by
            ext z
            simp only [Finset.mem_sdiff, Finset.mem_insert, Finset.mem_erase, Finset.mem_univ,
              true_and]
            tauto
          rw [this, Finset.card_erase_of_mem hcurU]
          have hpos : 0 < ((Finset.univ : Finset Pos) \ visited).card :=
            Finset.card_pos.mpr ⟨cur, hcurU⟩
          omega
        have hpushes_le :
            ((getNeighbors cur).filter
              (fun n => decide (g n ≠ EMPTY ∧ g n = c ∧ n ∉ insert cur visited))).length ≤ 4 :=
          le_trans (List.length_filter_le _ _) (getNeighbors_length_le cur)
        refine ih (insert cur visited) _ (group ++ [cur]) _ ?_ ?_ ?_ ?_ ?_ ?_ ?_ ?_
        · -- measure
          simp only [List.length_append, List.length_reverse, List.length_cons] at hfuel ⊢
          omega
        · -- Nodup of group ++ [cur]
          have : cur ∉ group := fun h => hcv ((hgv cur).mp h)
          simp [List.nodup_append, hnd, this]
        · -- membership in group ++ [cur] ↔ insert
          intro q
          simp only [List.mem_append, List.mem_singleton, Finset.mem_insert, hgv q]
          tauto
        · -- visited soundness
          intro v hv
          rcases Finset.mem_insert.mp hv with h | h
          · exact h ▸ hcur
          · exact hvis v h
        · -- stack soundness
          intro t ht
          rcases List.mem_append.mp ht with h | h
          · rw [List.mem_reverse] at h
            rw [List.mem_filter] at h
            have hprops := of_decide_eq_true h.2
            exact ⟨hprops.2.1,
              Relation.ReflTransGen.tail hcur.2 ⟨h.1, hprops.2.1⟩⟩
          · exact hstk t (List.mem_cons_of_mem cur h)
        · -- frontier closure
          intro v hv n hn hc
          rcases Finset.mem_insert.mp hv with hveq | hvold
          · rw [hveq] at hn
            by_cases hnmem : n ∈ insert cur visited
            · exact Or.inl hnmem
            · refine Or.inr (List.mem_append.mpr (Or.inl ?_))
              rw [List.mem_reverse, List.mem_filter]
              refine ⟨hn, decide_eq_true ?_⟩
              exact ⟨fun he => hcE (hc.symm.trans he), hc, hnmem⟩
          · rcases hclosed v hvold n hn hc with h | h
            · exact Or.inl (Finset.mem_insert_of_mem h)
            · rcases List.mem_cons.mp h with h | h
              · exact Or.inl (h ▸ Finset.mem_insert_self cur visited)
              · exact Or.inr (List.mem_append.mpr (Or.inr h))
        · -- liberty flag
          simp only [Bool.or_eq_true, List.any_eq_true, decide_eq_true_eq, hlib]
          constructor
          · rintro (⟨v, hv, n, hn, he⟩ | ⟨n, hn, he⟩)
            · exact ⟨v, Finset.mem_insert_of_mem hv, n, hn, he⟩
            · exact ⟨cur, Finset.mem_insert_self cur visited, n, hn, he⟩
          · rintro ⟨v, hv, n, hn, he⟩
            rcases Finset.mem_insert.mp hv with hveq | hvold
            · exact Or.inr ⟨n, hveq ▸ hn, he⟩
            · exact Or.inl ⟨v, hvold, n, hn, he⟩
        · -- cover
          rcases hcover with h | h
          · exact Or.inl (Finset.mem_insert_of_mem h)
          · rcases List.mem_cons.mp h with h | h
            · exact Or.inl (h ▸ Finset.mem_insert_self cur visited)
            · exact Or.inr (List.mem_append.mpr (Or.inr h))

theorem checkLiberties_spec (g : Grid) (x y : Fin 19) (c : StoneColor)
    (hcE : c ≠ EMPTY) (hs : g (x, y) = c) :
    (checkLiberties g x y c).group.Nodup ∧
      (∀ q : Pos, q ∈ (checkLiberties g x y c).group ↔ reaches g c (x, y) q) ∧
      ((checkLiberties g x y c).hasLiberties = true ↔
        ∃ q, reaches g c (x, y) q ∧ ∃ n ∈ getNeighbors q, g n = EMPTY) := by
  have hcard : ((Finset.univ : Finset Pos) \ ∅).card = 361 := by
    rw [Finset.sdiff_empty, Finset.card_univ]
    simp [Fintype.card_prod]
  refine libertyDfs_spec g c hcE (x, y) 1500 ∅ [(x, y)] [] false ?_ ?_ ?_ ?_ ?_ ?_ ?_ ?_
  · rw [hcard]
    norm_num
  · exact List.nodup_nil
  · simp
  · simp
  · intro t ht
    rw [List.mem_singleton] at ht
    subst ht
    exact ⟨hs, Relation.ReflTransGen.refl⟩
  · simp
  · simp
  · simp

theorem libertyDfs_group_prefix (g : Grid) (c : StoneColor) :
    ∀ (fuel : Nat) (visited : Finset Pos) (stack group : List Pos) (hasLib : Bool),
      ∃ t, (libertyDfs g c fuel visited stack group hasLib).group = group ++ t := by
  intro fuel
  induction fuel with
  | zero =>
    intro visited stack group hasLib
    exact ⟨[], by simp [libertyDfs]⟩
  | succ fuel ih =>
    intro visited stack group hasLib
    match stack with
    | [] => exact ⟨[], by simp [libertyDfs]⟩
    | cur :: rest =>
      simp only [libertyDfs]
      by_cases hcv : cur ∈ visited
      · rw [if_pos hcv]
        exact ih visited rest group hasLib
      · rw [if_neg hcv]
        obtain ⟨t, ht⟩ := ih (insert cur visited)
          (((getNeighbors cur).filter
              (fun n => decide (g n ≠ EMPTY ∧ g n = c ∧ n ∉ insert cur visited))).reverse ++ rest)
          (group ++ [cur])
          (hasLib || (getNeighbors cur).any (fun n => decide (g n = EMPTY)))
        refine ⟨cur :: t, ?_⟩
        rw [ht]
        simp

theorem libertyDfs_cons_not_mem (g : Grid) (c : StoneColor) (fuel : Nat)
    (visited : Finset Pos) (cur : Pos) (rest group : List Pos) (hasLib : Bool)
    (h : cur ∉ visited) :
    libertyDfs g c (fuel + 1) visited (cur :: rest) group hasLib =
      libertyDfs g c fuel (insert cur visited)
        (((getNeighbors cur).filter
            (fun n => decide (g n ≠ EMPTY ∧ g n = c ∧ n ∉ insert cur visited))).reverse ++ rest)
        (group ++ [cur])
        (hasLib || (getNeighbors cur).any (fun n => decide (g n = EMPTY))) := by
  simp only [libertyDfs]
  rw [if_neg h]

theorem checkLiberties_headD (g : Grid) (x y : Fin 19) (c : StoneColor) (d : Pos) :
    (checkLiberties g x y c).group.headD d = (x, y) := by
  have h1500 : (1500 : Nat) = 1499 + 1 := rfl
  unfold checkLiberties
  rw [h1500, libertyDfs_cons_not_mem g c 1499 ∅ (x, y) [] [] false (Finset.not_mem_empty (x, y))]
  obtain ⟨t, ht⟩ := libertyDfs_group_prefix g c 1499
    (insert (x, y) (∅ : Finset Pos))
    (((getNeighbors (x, y)).filter
        (fun n => decide (g n ≠ EMPTY ∧ g n = c ∧ n ∉ insert (x, y) (∅ : Finset Pos)))).reverse ++ [])
    ([] ++ [(x, y)])
    (false || (getNeighbors (x, y)).any (fun n => decide (g n = EMPTY)))
  rw [ht]
  simp

/-- C5 (amended to the fixed 19×19 board size of the engine): `checkLiberties` seeded
at an occupied point returns exactly the maximal 4-connected same-colored
group containing it — the seed belongs to it, members are pairwise connected
through same-colored stones and share the color of the seed, membership coincides
with the connectivity component, there are no duplicates, and the liberty flag
is true iff some member has an EMPTY orthogonal neighbor; moreover two such
groups that share any point coincide, so every non-empty point lies in exactly
one maximal group. -/
theorem checkLiberties_resolves_maximal_group (g : Grid) (p : Pos) (hne : g p ≠ EMPTY) :
    p ∈ (checkLiberties g p.1 p.2 (g p)).group ∧
    (checkLiberties g p.1 p.2 (g p)).group.Nodup ∧
    (∀ q : Pos, q ∈ (checkLiberties g p.1 p.2 (g p)).group ↔ q ∈ componentSet g p) ∧
    (∀ q ∈ (checkLiberties g p.1 p.2 (g p)).group, g q = g p) ∧
    (∀ q1 ∈ (checkLiberties g p.1 p.2 (g p)).group,
       ∀ q2 ∈ (checkLiberties g p.1 p.2 (g p)).group, reaches g (g p) q1 q2) ∧
    ((checkLiberties g p.1 p.2 (g p)).hasLiberties = true ↔
       ∃ q ∈ (checkLiberties g p.1 p.2 (g p)).group, ∃ n ∈ getNeighbors q, g n = EMPTY) ∧
    (∀ q : Pos, g q ≠ EMPTY → p ∈ (checkLiberties g q.1 q.2 (g q)).group →
       ∀ z : Pos, z ∈ (checkLiberties g p.1 p.2 (g p)).group ↔
         z ∈ (checkLiberties g q.1 q.2 (g q)).group) := by
  obtain ⟨x, y⟩ := p
  obtain ⟨hnd, hmem, hlib⟩ := checkLiberties_spec g x y (g (x, y)) hne rfl
  refine ⟨(hmem _).mpr Relation.ReflTransGen.refl, hnd, ?_, ?_, ?_, ?_, ?_⟩
  · intro q
    exact hmem q
  · intro q hq
    exact reaches_color rfl ((hmem q).mp hq)
  · intro q1 h1 q2 h2
    exact reaches_trans (reaches_symm rfl ((hmem q1).mp h1)) ((hmem q2).mp h2)
  · rw [hlib]
    constructor
    · rintro ⟨q, hq, hrest⟩
      exact ⟨q, (hmem q).mpr hq, hrest⟩
    · rintro ⟨q, hq, hrest⟩
      exact ⟨q, (hmem q).mp hq, hrest⟩
  · intro q hq hpq z
    obtain ⟨hndq, hmemq, hlibq⟩ := checkLiberties_spec g q.1 q.2 (g q) hq rfl
    have hp : (x, y) ∈ componentSet g q := (hmemq (x, y)).mp hpq
    have hcomp : componentSet g (x, y) = componentSet g q := componentSet_eq_of_mem hp
    rw [hmem z, hmemq z]
    show z ∈ componentSet g (x, y) ↔ z ∈ componentSet g q
    rw [hcomp]

/-- C5 witness: the lone black stone at (5,5) is a member of the group that
`checkLiberties` resolves for it. -/
theorem checkLiberties_resolves_maximal_group_witness :
    ((5 : Fin 19), (5 : Fin 19)) ∈
      (checkLiberties loneStoneGrid 5 5 (loneStoneGrid (5, 5))).group :=
  (checkLiberties_resolves_maximal_group loneStoneGrid (5, 5) (by decide)).1

/-- C5 counterexample: the claim quantifies over every grid, but on a 5×5 grid
with a black stone at (0,4) `checkLiberties` enumerates the out-of-range
neighbor (0,5) (the neighbor list is built with the default size 19) and the
read `grid[5][0]` throws instead of returning the maximal group. -/
theorem checkLiberties_small_board_throws :
    edgeStoneGrid5.length = 5 ∧ cellAt edgeStoneGrid5 0 4 = BLACK ∧
      checkLibertiesDyn edgeStoneGrid5 0 4 BLACK = Except.error "TypeError" :=
  ⟨rfl, rfl, rfl⟩

/-! ### Move-engine lemmas -/

theorem opponentOf_ne_empty (c : StoneColor) : opponentOf c ≠ EMPTY := by
  unfold opponentOf
  split_ifs <;> simp

theorem opponentOf_ne_self (c : StoneColor) (hc : c = BLACK ∨ c = WHITE) :
    opponentOf c ≠ c := by
  rcases hc with h | h <;> subst h <;> simp [opponentOf]

theorem color_ne_empty (c : StoneColor) (hc : c = BLACK ∨ c = WHITE) : c ≠ EMPTY := by
  rcases hc with h | h <;> subst h <;> simp

theorem capturedStonesList_eq (g1 : Grid) (pos : Pos) (opp : StoneColor) :
    capturedStonesList g1 pos opp =
      ((getNeighbors pos).filter
          (fun n =>
            decide (g1 n = opp ∧
              (checkLiberties g1 n.1 n.2 opp).hasLiberties = false))).flatMap
        (fun n => (checkLiberties g1 n.1 n.2 opp).group) := by
  unfold capturedStonesList
  suffices h : ∀ (l : List Pos) (acc : List Pos),
      l.foldl
        (fun acc n =>
          if g1 n = opp then
            let result := checkLiberties g1 n.1 n.2 opp
            if result.hasLiberties then acc else acc ++ result.group
          else acc) acc =
      acc ++ (l.filter
          (fun n =>
            decide (g1 n = opp ∧
              (checkLiberties g1 n.1 n.2 opp).hasLiberties = false))).flatMap
        (fun n => (checkLiberties g1 n.1 n.2 opp).group) by
    simpa using h (getNeighbors pos) []
  intro l
  induction l with
  | nil =>
    intro acc
    simp
  | cons n t ih =>
    intro acc
    by_cases h1 : g1 n = opp
    · by_cases h2 : (checkLiberties g1 n.1 n.2 opp).hasLiberties = true
      · simp [h1, h2, ih]
      · simp [h1, h2, ih]
    · simp [h1, ih]

theorem mem_capturedStonesList {g1 : Grid} {pos : Pos} {opp : StoneColor} {p : Pos} :
    p ∈ capturedStonesList g1 pos opp ↔
      ∃ n ∈ getNeighbors pos, g1 n = opp ∧
        (checkLiberties g1 n.1 n.2 opp).hasLiberties = false ∧
        p ∈ (checkLiberties g1 n.1 n.2 opp).group := by
  rw [capturedStonesList_eq]
  simp only [List.mem_flatMap, List.mem_filter, decide_eq_true_eq]
  constructor
  · rintro ⟨n, ⟨hn, hcol, hlib⟩, hp⟩
    exact ⟨n, hn, hcol, hlib, hp⟩
  · rintro ⟨n, hn, hcol, hlib, hp⟩
    exact ⟨n, ⟨hn, hcol, hlib⟩, hp⟩

theorem capturedStonesList_eq_nil_iff (g1 : Grid) (pos : Pos) (opp : StoneColor)
    (hopp : opp ≠ EMPTY) :
    capturedStonesList g1 pos opp = [] ↔
      ∀ n ∈ getNeighbors pos, g1 n = opp →
        (checkLiberties g1 n.1 n.2 opp).hasLiberties = true := by
  constructor
  · intro hnil n hn hcol
    by_contra hlib
    have hfalse : (checkLiberties g1 n.1 n.2 opp).hasLiberties = false := by
      cases hb : (checkLiberties g1 n.1 n.2 opp).hasLiberties
      · rfl
      · exact absurd hb hlib
    have hseed : n ∈ (checkLiberties g1 n.1 n.2 opp).group :=
      ((checkLiberties_spec g1 n.1 n.2 opp hopp hcol).2.1 n).mpr Relation.ReflTransGen.refl
    have hmem : n ∈ capturedStonesList g1 pos opp :=
      mem_capturedStonesList.mpr ⟨n, hn, hcol, hfalse, hseed⟩
    rw [hnil] at hmem
    exact absurd hmem (List.not_mem_nil n)
  · intro hall
    rw [capturedStonesList_eq]
    have hfil : ((getNeighbors pos).filter
        (fun n =>
          decide (g1 n = opp ∧
            (checkLiberties g1 n.1 n.2 opp).hasLiberties = false))) = [] := by
      rw [List.filter_eq_nil_iff]
      intro n hn
      simp only [decide_eq_true_eq, not_and]
      intro hcol hlib
      rw [hall n hn hcol] at hlib
      cases hlib
    rw [hfil]
    rfl

theorem capturedStonesList_colors {g1 : Grid} {pos : Pos} {opp : StoneColor}
    (hopp : opp ≠ EMPTY) {p : Pos} (hp : p ∈ capturedStonesList g1 pos opp) :
    g1 p = opp := by
  obtain ⟨n, hn, hcol, hlib, hgrp⟩ := mem_capturedStonesList.mp hp
  have hspec := checkLiberties_spec g1 n.1 n.2 opp hopp hcol
  have := (hspec.2.1 p).mp hgrp
  exact reaches_color hcol this

theorem removeStones_apply (l : List Pos) (g : Grid) (p : Pos) :
    removeStones l g p = if p ∈ l then EMPTY else g p := by
  induction l generalizing g with
  | nil =>
    simp [removeStones]
  | cons a t ih =>
    show removeStones t (Function.update g a EMPTY) p = _
    rw [ih (Function.update g a EMPTY)]
    by_cases hp : p ∈ t
    · simp [hp, List.mem_cons]
    · by_cases hpa : p = a
      · subst hpa
        simp [hp, Function.update_apply]
      · simp [hp, hpa, Function.update_apply, List.mem_cons]

theorem nodup_all_eq_singleton {α : Type} (l : List α) (hnd : l.Nodup) (k : α)
    (hne : l ≠ []) (hall : ∀ a ∈ l, a = k) : l = [k] := by
  cases l with
  | nil => exact absurd rfl hne
  | cons a t =>
    have ha : a = k := hall a (List.mem_cons_self a t)
    cases t with
    | nil => rw [ha]
    | cons b t2 =>
      exfalso
      have hb : b = k := hall b (List.mem_cons_of_mem a (List.mem_cons_self b t2))
      have : a ∈ b :: t2 := by
        rw [ha, ← hb]
        exact List.mem_cons_self b t2
      exact (List.nodup_cons.mp hnd).1 this

theorem checkLiberties_hasLib_iff (g : Grid) (x y : Fin 19) (c : StoneColor)
    (hcE : c ≠ EMPTY) (hs : g (x, y) = c) :
    (checkLiberties g x y c).hasLiberties = true ↔ hasGroupLiberty g c (x, y) :=
  (checkLiberties_spec g x y c hcE hs).2.2

/-- C4: `playMove` rejects — validity `false` together with a reason string —
exactly when the target point is occupied, equals the `koPoint` of the state, or
the move is a suicide (after placement every adjacent opposing group keeps a
liberty, so nothing is captured, and the own group of the placing stone has no
liberty); every rejection returns the prior `BoardState` unchanged, and a
valid move carries no message. -/
theorem playMove_reject_iff (st : BoardState) (x y : Fin 19) (color : StoneColor)
    (hc : color = BLACK ∨ color = WHITE) :
    ((playMove st x y color).valid = false ↔
      (st.grid (x, y) ≠ EMPTY ∨ st.koPoint = some (x, y) ∨
        (st.grid (x, y) = EMPTY ∧ st.koPoint ≠ some (x, y) ∧
          (∀ n ∈ getNeighbors (x, y),
            Function.update st.grid (x, y) color n = opponentOf color →
              hasGroupLiberty (Function.update st.grid (x, y) color) (opponentOf color) n) ∧
          ¬ hasGroupLiberty (Function.update st.grid (x, y) color) color (x, y)))) ∧
    ((playMove st x y color).valid = false →
      (playMove st x y color).newState = st ∧
        (playMove st x y color).message.isSome = true) ∧
    ((playMove st x y color).valid = true → (playMove st x y color).message = none) := by
  by_cases h1 : st.grid (x, y) = EMPTY
  · by_cases h2 : st.koPoint = some (x, y)
    · have hres : playMove st x y color = ⟨st, false, some "Ko rule violation"⟩ := by
        unfold playMove
        rw [if_neg (not_not_intro h1), if_pos h2]
      rw [hres]
      exact ⟨by simp [h2], fun _ => ⟨rfl, rfl⟩, fun h => by cases h⟩
    · have hopp := opponentOf_ne_empty color
      have hcne := color_ne_empty color hc
      have hg1pos : Function.update st.grid (x, y) color (x, y) = color :=
        Function.update_same (x, y) color st.grid
      by_cases hnil : capturedStonesList (Function.update st.grid (x, y) color) (x, y)
          (opponentOf color) = []
      · have hnoCap : ∀ n ∈ getNeighbors (x, y),
            Function.update st.grid (x, y) color n = opponentOf color →
              hasGroupLiberty (Function.update st.grid (x, y) color) (opponentOf color) n := by
          intro n hn hcol
          exact (checkLiberties_hasLib_iff (Function.update st.grid (x, y) color) n.1 n.2
              (opponentOf color) hopp hcol).mp
            ((capturedStonesList_eq_nil_iff (Function.update st.grid (x, y) color) (x, y)
                (opponentOf color) hopp).mp hnil n hn hcol)
        by_cases hself : (checkLiberties (Function.update st.grid (x, y) color) x y
            color).hasLiberties = false
        · have hres : playMove st x y color = ⟨st, false, some "Suicide move not allowed"⟩ := by
            unfold playMove
            rw [if_neg (not_not_intro h1), if_neg h2]
            dsimp only
            rw [hnil]
            simp only [List.length_nil, removeStones, List.foldl_nil]
            rw [if_pos trivial, if_pos hself]
          rw [hres]
          refine ⟨?_, fun _ => ⟨rfl, rfl⟩, fun h => by cases h⟩
          constructor
          · intro _
            refine Or.inr (Or.inr ⟨h1, h2, hnoCap, fun hlib => ?_⟩)
            have htr := (checkLiberties_hasLib_iff (Function.update st.grid (x, y) color) x y
                color hcne hg1pos).mpr hlib
            rw [htr] at hself
            cases hself
          · intro _
            rfl
        · have hlibT : (checkLiberties (Function.update st.grid (x, y) color) x y
              color).hasLiberties = true := by
            cases hb : (checkLiberties (Function.update st.grid (x, y) color) x y
                color).hasLiberties
            · exact absurd hb hself
            · rfl
          have hres : playMove st x y color =
              playMoveFinish st x y color [] (Function.update st.grid (x, y) color) := by
            unfold playMove
            rw [if_neg (not_not_intro h1), if_neg h2]
            dsimp only
            rw [hnil]
            simp only [List.length_nil, removeStones, List.foldl_nil]
            rw [if_pos trivial, if_neg (by rw [hlibT]; exact fun h => by cases h)]
          rw [hres]
          refine ⟨?_, ?_, fun _ => rfl⟩
          · constructor
            · intro h
              exact absurd h (by simp [playMoveFinish])
            · rintro (h | h | ⟨_, _, _, hnoLib⟩)
              · exact absurd h1 h
              · exact absurd h h2
              · exact absurd ((checkLiberties_hasLib_iff (Function.update st.grid (x, y) color)
                  x y color hcne hg1pos).mp hlibT) hnoLib
          · intro h
            exact absurd h (by simp [playMoveFinish])
      · have hres : playMove st x y color =
            playMoveFinish st x y color
              (capturedStonesList (Function.update st.grid (x, y) color) (x, y)
                (opponentOf color))
              (removeStones
                (capturedStonesList (Function.update st.grid (x, y) color) (x, y)
                  (opponentOf color))
                (Function.update st.grid (x, y) color)) := by
          unfold playMove
          rw [if_neg (not_not_intro h1), if_neg h2]
          dsimp only
          rw [if_neg (fun hlen => hnil (List.length_eq_zero.mp hlen))]
        rw [hres]
        refine ⟨?_, ?_, fun _ => rfl⟩
        · constructor
          · intro h
            exact absurd h (by simp [playMoveFinish])
          · rintro (h | h | ⟨_, _, hnoCap, _⟩)
            · exact absurd h1 h
            · exact absurd h h2
            · obtain ⟨p, hp⟩ := List.exists_mem_of_ne_nil _ hnil
              obtain ⟨n, hn, hcol, hlibF, _⟩ := mem_capturedStonesList.mp hp
              have := (checkLiberties_hasLib_iff (Function.update st.grid (x, y) color) n.1 n.2
                  (opponentOf color) hopp hcol).mpr (hnoCap n hn hcol)
              rw [this] at hlibF
              cases hlibF
        · intro h
          exact absurd h (by simp [playMoveFinish])
  · have hres : playMove st x y color = ⟨st, false, some "Point is occupied"⟩ := by
      unfold playMove
      rw [if_pos h1]
    rw [hres]
    exact ⟨by simp [h1], fun _ => ⟨rfl, rfl⟩, fun h => by cases h⟩

/-- C4 witness: playing on the occupied point (3,3) is rejected. -/
theorem playMove_reject_iff_witness :
    (playMove occupiedState 3 3 BLACK).valid = false :=
  ((playMove_reject_iff occupiedState 3 3 BLACK (Or.inl rfl)).1).mpr (Or.inl (by decide))

theorem playMoveFinish_koPoint (st : BoardState) (x y : Fin 19) (color : StoneColor)
    (captured : List Pos) (newGrid : Grid) :
    (playMoveFinish st x y color captured newGrid).newState.koPoint =
      (if captured.length = 1 then
        (if (checkLiberties newGrid x y color).group.length = 1 ∧
            (checkLiberties newGrid x y color).hasLiberties = true then
          some (captured.headD (x, y))
        else none)
      else none) := rfl

theorem playMoveFinish_grid (st : BoardState) (x y : Fin 19) (color : StoneColor)
    (captured : List Pos) (newGrid : Grid) :
    (playMoveFinish st x y color captured newGrid).newState.grid = newGrid := rfl

theorem capturedStonesList_singleton (g1 : Grid) (pos : Pos) (opp : StoneColor)
    (hopp : opp ≠ EMPTY) (k : Pos) (hk : k ∈ capturedStonesList g1 pos opp)
    (hall : ∀ p ∈ capturedStonesList g1 pos opp, p = k) :
    capturedStonesList g1 pos opp = [k] := by
  rw [capturedStonesList_eq] at hk hall ⊢
  have hfl_nodup : ((getNeighbors pos).filter
      (fun n =>
        decide (g1 n = opp ∧
          (checkLiberties g1 n.1 n.2 opp).hasLiberties = false))).Nodup :=
    (getNeighbors_nodup pos).filter _
  have hseeds : ∀ n ∈ (getNeighbors pos).filter
      (fun n =>
        decide (g1 n = opp ∧
          (checkLiberties g1 n.1 n.2 opp).hasLiberties = false)), n = k := by
    intro n hn
    have hprops := (List.mem_filter.mp hn).2
    rw [decide_eq_true_eq] at hprops
    have hseed : n ∈ (checkLiberties g1 n.1 n.2 opp).group :=
      ((checkLiberties_spec g1 n.1 n.2 opp hopp hprops.1).2.1 n).mpr Relation.ReflTransGen.refl
    exact hall n (List.mem_flatMap.mpr ⟨n, hn, hseed⟩)
  have hflne : ((getNeighbors pos).filter
      (fun n =>
        decide (g1 n = opp ∧
          (checkLiberties g1 n.1 n.2 opp).hasLiberties = false))) ≠ [] := by
    intro hempty
    rw [hempty] at hk
    simp at hk
  have hfl := nodup_all_eq_singleton _ hfl_nodup k hflne hseeds
  rw [hfl] at hall ⊢
  have hkprops : g1 k = opp ∧ (checkLiberties g1 k.1 k.2 opp).hasLiberties = false := by
    have : k ∈ (getNeighbors pos).filter
        (fun n =>
          decide (g1 n = opp ∧
            (checkLiberties g1 n.1 n.2 opp).hasLiberties = false)) := by
      rw [hfl]
      exact List.mem_cons_self k []
    have hprops := (List.mem_filter.mp this).2
    rwa [decide_eq_true_eq] at hprops
  have hspec := checkLiberties_spec g1 k.1 k.2 opp hopp hkprops.1
  have hgrpne : (checkLiberties g1 k.1 k.2 opp).group ≠ [] :=
    List.ne_nil_of_mem (((hspec.2.1 k).mpr Relation.ReflTransGen.refl))
  have hgall : ∀ p ∈ (checkLiberties g1 k.1 k.2 opp).group, p = k := by
    intro p hp
    refine hall p ?_
    simp only [List.flatMap_cons, List.flatMap_nil, List.append_nil]
    exact hp
  have hgrp := nodup_all_eq_singleton _ hspec.1 k hgrpne hgall
  simp only [List.flatMap_cons, List.flatMap_nil, List.append_nil]
  exact hgrp

/-- C3: for every move accepted by `playMove`, the resulting `koPoint` is
`some k` iff `k` is the unique stone removed from the grid AND the placed
own resolved group of the placed stone in the resulting grid is the single stone (x,y)
with at least one liberty; a `koPoint` always refers to an EMPTY point of the
resulting grid; and a move at the current (empty) `koPoint` is rejected with
the ko-violation reason, the state unchanged. -/
theorem playMove_ko_spec (st : BoardState) (x y : Fin 19) (color : StoneColor)
    (hc : color = BLACK ∨ color = WHITE) :
    ((playMove st x y color).valid = true →
      (∀ k : Pos,
        ((playMove st x y color).newState.koPoint = some k ↔
          ((st.grid k ≠ EMPTY ∧ (playMove st x y color).newState.grid k = EMPTY) ∧
           (∀ p : Pos, st.grid p ≠ EMPTY →
              (playMove st x y color).newState.grid p = EMPTY → p = k) ∧
           (∀ q : Pos,
              reaches (playMove st x y color).newState.grid color (x, y) q → q = (x, y)) ∧
           (∃ n ∈ getNeighbors (x, y),
              (playMove st x y color).newState.grid n = EMPTY)))) ∧
      (∀ k : Pos, (playMove st x y color).newState.koPoint = some k →
        (playMove st x y color).newState.grid k = EMPTY)) ∧
    (st.koPoint = some (x, y) → st.grid (x, y) = EMPTY →
      playMove st x y color = ⟨st, false, some "Ko rule violation"⟩) := by
  have hopp := opponentOf_ne_empty color
  have hcne := color_ne_empty color hc
  have hoppc := opponentOf_ne_self color hc
  constructor
  · intro hval
    by_cases h1 : st.grid (x, y) = EMPTY
    · by_cases h2 : st.koPoint = some (x, y)
      · have hres : playMove st x y color = ⟨st, false, some "Ko rule violation"⟩ := by
          unfold playMove
          rw [if_neg (not_not_intro h1), if_pos h2]
        rw [hres] at hval
        cases hval
      · have hg1pos : Function.update st.grid (x, y) color (x, y) = color :=
          Function.update_same (x, y) color st.grid
        by_cases hnil : capturedStonesList (Function.update st.grid (x, y) color) (x, y)
            (opponentOf color) = []
        · -- no capture: the self-liberty check must have passed, koPoint is none
          by_cases hself : (checkLiberties (Function.update st.grid (x, y) color) x y
              color).hasLiberties = false
          · have hres : playMove st x y color =
                ⟨st, false, some "Suicide move not allowed"⟩ := by
              unfold playMove
              rw [if_neg (not_not_intro h1), if_neg h2]
              dsimp only
              rw [hnil]
              simp only [List.length_nil, removeStones, List.foldl_nil]
              rw [if_pos trivial, if_pos hself]
            rw [hres] at hval
            cases hval
          · have hres : playMove st x y color =
                playMoveFinish st x y color [] (Function.update st.grid (x, y) color) := by
              unfold playMove
              rw [if_neg (not_not_intro h1), if_neg h2]
              dsimp only
              rw [hnil]
              simp only [List.length_nil, removeStones, List.foldl_nil]
              rw [if_pos trivial,
                if_neg (fun hf => hself hf)]
            rw [hres]
            have hko : (playMoveFinish st x y color []
                (Function.update st.grid (x, y) color)).newState.koPoint = none := by
              rw [playMoveFinish_koPoint]
              rw [if_neg (by simp)]
            constructor
            · intro k
              rw [hko, playMoveFinish_grid]
              constructor
              · intro h
                cases h
              · rintro ⟨⟨hkne, hkem⟩, _, _, _⟩
                by_cases hkp : k = (x, y)
                · subst hkp
                  rw [hg1pos] at hkem
                  exact absurd hkem hcne
                · rw [Function.update_noteq hkp] at hkem
                  exact absurd hkem hkne
            · intro k hk
              rw [hko] at hk
              cases hk
        · -- a capture happened
          have hres : playMove st x y color =
              playMoveFinish st x y color
                (capturedStonesList (Function.update st.grid (x, y) color) (x, y)
                  (opponentOf color))
                (removeStones
                  (capturedStonesList (Function.update st.grid (x, y) color) (x, y)
                    (opponentOf color))
                  (Function.update st.grid (x, y) color)) := by
            unfold playMove
            rw [if_neg (not_not_intro h1), if_neg h2]
            dsimp only
            rw [if_neg (fun hlen => hnil (List.length_eq_zero.mp hlen))]
          rw [hres]
          rw [playMoveFinish_koPoint]
          -- abbreviations
          have hF1 : ∀ p : Pos,
              (st.grid p ≠ EMPTY ∧
                removeStones
                  (capturedStonesList (Function.update st.grid (x, y) color) (x, y)
                    (opponentOf color))
                  (Function.update st.grid (x, y) color) p = EMPTY) ↔
              p ∈ capturedStonesList (Function.update st.grid (x, y) color) (x, y)
                (opponentOf color) := by
            intro p
            rw [removeStones_apply]
            constructor
            · rintro ⟨hne, hem⟩
              by_cases hmem : p ∈ capturedStonesList (Function.update st.grid (x, y) color)
                  (x, y) (opponentOf color)
              · exact hmem
              · rw [if_neg hmem] at hem
                by_cases hpp : p = (x, y)
                · subst hpp
                  rw [hg1pos] at hem
                  exact absurd hem hcne
                · rw [Function.update_noteq hpp] at hem
                  exact absurd hem hne
            · intro hmem
              have hcolp := capturedStonesList_colors hopp hmem
              have hpp : p ≠ (x, y) := by
                intro hpp
                rw [hpp, hg1pos] at hcolp
                exact hoppc hcolp.symm
              rw [Function.update_noteq hpp] at hcolp
              refine ⟨?_, ?_⟩
              · rw [hcolp]
                exact hopp
              · rw [if_pos hmem]
          have hposmem : (x, y) ∉ capturedStonesList (Function.update st.grid (x, y) color)
              (x, y) (opponentOf color) := by
            intro hmem
            have := capturedStonesList_colors hopp hmem
            rw [hg1pos] at this
            exact hoppc this.symm
          have hF2 : removeStones
              (capturedStonesList (Function.update st.grid (x, y) color) (x, y)
                (opponentOf color))
              (Function.update st.grid (x, y) color) (x, y) = color := by
            rw [removeStones_apply, if_neg hposmem]
            exact hg1pos
          have hselfspec := checkLiberties_spec
            (removeStones
              (capturedStonesList (Function.update st.grid (x, y) color) (x, y)
                (opponentOf color))
              (Function.update st.grid (x, y) color)) x y color hcne hF2
          constructor
          · intro k
            rw [playMoveFinish_grid]
            constructor
            · intro hko
              by_cases hlen : (capturedStonesList (Function.update st.grid (x, y) color)
                  (x, y) (opponentOf color)).length = 1
              · rw [if_pos hlen] at hko
                by_cases hcond : (checkLiberties
                    (removeStones
                      (capturedStonesList (Function.update st.grid (x, y) color) (x, y)
                        (opponentOf color))
                      (Function.update st.grid (x, y) color)) x y color).group.length = 1 ∧
                    (checkLiberties
                      (removeStones
                        (capturedStonesList (Function.update st.grid (x, y) color) (x, y)
                          (opponentOf color))
                        (Function.update st.grid (x, y) color)) x y color).hasLiberties = true
                · rw [if_pos hcond] at hko
                  obtain ⟨a, ha⟩ := List.length_eq_one.mp hlen
                  have hk : a = k := by
                    rw [ha] at hko
                    simpa using hko
                  subst hk
                  have hamem : a ∈ capturedStonesList (Function.update st.grid (x, y) color)
                      (x, y) (opponentOf color) := by
                    rw [ha]
                    exact List.mem_cons_self a []
                  have hsingleton : ∀ q : Pos,
                      reaches (removeStones
                        (capturedStonesList (Function.update st.grid (x, y) color) (x, y)
                          (opponentOf color))
                        (Function.update st.grid (x, y) color)) color (x, y) q →
                        q = (x, y) := by
                    intro q hq
                    have hqmem := (hselfspec.2.1 q).mpr hq
                    obtain ⟨b, hb⟩ := List.length_eq_one.mp hcond.1
                    have hseedmem := (hselfspec.2.1 (x, y)).mpr Relation.ReflTransGen.refl
                    rw [hb] at hqmem hseedmem
                    simp only [List.mem_singleton] at hqmem hseedmem
                    rw [hqmem, hseedmem]
                  refine ⟨(hF1 a).mpr hamem, ?_, hsingleton, ?_⟩
                  · intro p hpne hpem
                    have hpmem := (hF1 p).mp ⟨hpne, hpem⟩
                    rw [ha] at hpmem
                    simpa using hpmem
                  · obtain ⟨q, hq, n, hn, he⟩ := (hselfspec.2.2).mp hcond.2
                    have := hsingleton q hq
                    subst this
                    exact ⟨n, hn, he⟩
                · rw [if_neg hcond] at hko
                  cases hko
              · rw [if_neg hlen] at hko
                cases hko
            · rintro ⟨hrem, huniq, hsing, hlib⟩
              have hkmem := (hF1 k).mp hrem
              have hall : ∀ p ∈ capturedStonesList (Function.update st.grid (x, y) color)
                  (x, y) (opponentOf color), p = k := by
                intro p hp
                have := (hF1 p).mpr hp
                exact huniq p this.1 this.2
              have hsingl := capturedStonesList_singleton
                (Function.update st.grid (x, y) color) (x, y) (opponentOf color) hopp k
                hkmem hall
              have hlen : (capturedStonesList (Function.update st.grid (x, y) color) (x, y)
                  (opponentOf color)).length = 1 := by
                rw [hsingl]
                rfl
              rw [if_pos hlen]
              have hgrplen : (checkLiberties
                  (removeStones
                    (capturedStonesList (Function.update st.grid (x, y) color) (x, y)
                      (opponentOf color))
                    (Function.update st.grid (x, y) color)) x y color).group.length = 1 := by
                have hseedmem := (hselfspec.2.1 (x, y)).mpr Relation.ReflTransGen.refl
                have hgall : ∀ p ∈ (checkLiberties
                    (removeStones
                      (capturedStonesList (Function.update st.grid (x, y) color) (x, y)
                        (opponentOf color))
                      (Function.update st.grid (x, y) color)) x y color).group,
                    p = (x, y) := by
                  intro p hp
                  exact hsing p ((hselfspec.2.1 p).mp hp)
                rw [nodup_all_eq_singleton _ hselfspec.1 (x, y)
                  (List.ne_nil_of_mem hseedmem) hgall]
                rfl
              have hlibT : (checkLiberties
                  (removeStones
                    (capturedStonesList (Function.update st.grid (x, y) color) (x, y)
                      (opponentOf color))
                    (Function.update st.grid (x, y) color)) x y color).hasLiberties = true := by
                obtain ⟨n, hn, he⟩ := hlib
                exact (hselfspec.2.2).mpr ⟨(x, y), Relation.ReflTransGen.refl, n, hn, he⟩
              rw [if_pos ⟨hgrplen, hlibT⟩]
              rw [hsingl]
              rfl
          · intro k hko
            rw [playMoveFinish_grid]
            by_cases hlen : (capturedStonesList (Function.update st.grid (x, y) color)
                (x, y) (opponentOf color)).length = 1
            · rw [if_pos hlen] at hko
              obtain ⟨a, ha⟩ := List.length_eq_one.mp hlen
              by_cases hcond : (checkLiberties
                  (removeStones
                    (capturedStonesList (Function.update st.grid (x, y) color) (x, y)
                      (opponentOf color))
                    (Function.update st.grid (x, y) color)) x y color).group.length = 1 ∧
                  (checkLiberties
                    (removeStones
                      (capturedStonesList (Function.update st.grid (x, y) color) (x, y)
                        (opponentOf color))
                      (Function.update st.grid (x, y) color)) x y color).hasLiberties = true
              · rw [if_pos hcond] at hko
                have hk : a = k := by
                  rw [ha] at hko
                  simpa using hko
                subst hk
                have hamem : a ∈ capturedStonesList (Function.update st.grid (x, y) color)
                    (x, y) (opponentOf color) := by
                  rw [ha]
                  exact List.mem_cons_self a []
                rw [removeStones_apply, if_pos hamem]
              · rw [if_neg hcond] at hko
                cases hko
            · rw [if_neg hlen] at hko
              cases hko
    · have hres : playMove st x y color = ⟨st, false, some "Point is occupied"⟩ := by
        unfold playMove
        rw [if_pos h1]
      rw [hres] at hval
      cases hval
  · intro hko hempt
    unfold playMove
    rw [if_neg (not_not_intro hempt), if_pos hko]

/-- C3 witness: a move at the (empty) koPoint of `koRejectState` is rejected
unchanged; and the single-stone capture in `koState` yields koPoint (1,1),
whose semantic characterization the theorem instantiates. -/
theorem playMove_ko_spec_witness :
    (playMove koRejectState 2 2 WHITE = ⟨koRejectState, false, some "Ko rule violation"⟩) ∧
    ((koState.grid ((1 : Fin 19), (1 : Fin 19)) ≠ EMPTY ∧
        (playMove koState 1 2 BLACK).newState.grid (1, 1) = EMPTY) ∧
      (∀ p : Pos, koState.grid p ≠ EMPTY →
        (playMove koState 1 2 BLACK).newState.grid p = EMPTY → p = (1, 1)) ∧
      (∀ q : Pos,
        reaches (playMove koState 1 2 BLACK).newState.grid BLACK (1, 2) q → q = (1, 2)) ∧
      (∃ n ∈ getNeighbors (1, 2), (playMove koState 1 2 BLACK).newState.grid n = EMPTY)) :=
  ⟨(playMove_ko_spec koRejectState 2 2 WHITE (Or.inr rfl)).2 rfl rfl,
   (((playMove_ko_spec koState 1 2 BLACK (Or.inl rfl)).1 (by decide)).1 (1, 1)).mp (by decide)⟩

/-- C1 (code bug, failing input): BLACK plays (0,1) into `captureStateC1`.
The white group {(0,0),(1,0),(1,1)} touches (0,1) at two neighbors, so the
capture loop resolves and appends it twice: the BLACK capture count grows by 6
although exactly 3 distinct stones are removed from the grid.  The spec
requires the increment to equal the number of stones removed. -/
theorem playMove_capture_count_mismatch :
    (playMove captureStateC1 0 1 BLACK).valid = true ∧
    captureStateC1.captures.B = 0 ∧
    (playMove captureStateC1 0 1 BLACK).newState.captures.B = 6 ∧
    ((Finset.univ : Finset Pos).filter
        (fun p => captureStateC1.grid p ≠ EMPTY ∧
          (playMove captureStateC1 0 1 BLACK).newState.grid p = EMPTY)).card = 3 ∧
    (6 : Nat) ≠ 3 :=
  ⟨by decide, rfl, by decide, by decide, by decide⟩

/-- C2 (code bug, failing input): on a 5×5 board `playMove` at the in-bounds
bottom-edge point (2,4) with a valid color throws.  The neighbor list is built
with the default size 19, so it contains (2,5), and the JavaScript read
`newGrid[5][2]` is a TypeError. -/
theorem playMove_small_board_throws :
    emptyState5.grid.length = 5 ∧ cellAt emptyState5.grid 2 4 = EMPTY ∧
      playMoveDyn emptyState5 2 4 BLACK = Except.error "TypeError" :=
  ⟨rfl, rfl, rfl⟩

/-- C10: `toGtpCoordinate` yields "pass" exactly off the fixed 19×19 range;
in range it yields a letter of the "I"-skipping alphabet followed by the
number `19 - y`, and never "pass". -/
theorem toGtpCoordinate_spec :
    ∀ x y : Int,
      ((x < 0 ∨ 19 ≤ x ∨ y < 0 ∨ 19 ≤ y) → toGtpCoordinate x y = "pass") ∧
      (0 ≤ x → x < 19 → 0 ≤ y → y < 19 →
        ((∃ c ∈ gtpLetters.toList, c ≠ 'I' ∧
            toGtpCoordinate x y = String.singleton c ++ toString ((19 : Int) - y)) ∧
          toGtpCoordinate x y ≠ "pass")) := by
  intro x y
  constructor
  · intro h
    unfold toGtpCoordinate
    rw [if_pos h]
  · intro hx0 hx19 hy0 hy19
    have key : ∀ a b : Fin 19,
        (∃ c ∈ gtpLetters.toList, c ≠ 'I' ∧
          toGtpCoordinate ((a.val : Nat) : Int) ((b.val : Nat) : Int) =
            String.singleton c ++ toString ((19 : Int) - ((b.val : Nat) : Int))) ∧
        toGtpCoordinate ((a.val : Nat) : Int) ((b.val : Nat) : Int) ≠ "pass" := by decide
    have hxa : x = ((x.toNat : Nat) : Int) := (Int.toNat_of_nonneg hx0).symm
    have hya : y = ((y.toNat : Nat) : Int) := (Int.toNat_of_nonneg hy0).symm
    have hxb : x.toNat < 19 := by omega
    have hyb : y.toNat < 19 := by omega
    have hk := key ⟨x.toNat, hxb⟩ ⟨y.toNat, hyb⟩
    rw [hxa, hya]
    exact hk

/-- C10 witness: an off-board coordinate renders as "pass"; an on-board one
does not. -/
theorem toGtpCoordinate_spec_witness :
    toGtpCoordinate (-1) 5 = "pass" ∧ toGtpCoordinate 2 3 ≠ "pass" :=
  ⟨(toGtpCoordinate_spec (-1) 5).1 (Or.inl (by norm_num)),
   ((toGtpCoordinate_spec 2 3).2 (by norm_num) (by norm_num) (by norm_num) (by norm_num)).2⟩

/-! ### Text-rendering lemmas -/

theorem foldl_strJoinMap {α : Type} (f : α → String) :
    ∀ (l : List α) (init : String),
      l.foldl (fun a i => a ++ f i) init = init ++ strJoinMap f l := by
  intro l
  induction l with
  | nil =>
    intro init
    simp [strJoinMap, String.append_empty]
  | cons a t ih =>
    intro init
    simp only [List.foldl_cons, strJoinMap]
    rw [ih (init ++ f a), String.append_assoc]

theorem gtpLetters_no_I : 'I' ∉ gtpLetters.toList := by decide

theorem gtpLetters_take_no_I (size : Nat) : 'I' ∉ (gtpLetters.take size).toList := by
  intro h
  have hmem : 'I' ∈ gtpLetters.toList := by
    have hdata : (gtpLetters.take size).toList = gtpLetters.toList.take size := by
      show (gtpLetters.take size).data = gtpLetters.data.take size
      exact String.data_take gtpLetters size
    rw [hdata] at h
    exact List.mem_of_mem_take h
  exact gtpLetters_no_I hmem

theorem foldl_shift {α : Type} (step : String → α → String)
    (hstep : ∀ (a b : String) (i : α), step (a ++ b) i = a ++ step b i) :
    ∀ (l : List α) (init : String), l.foldl step init = init ++ l.foldl step "" := by
  intro l
  induction l with
  | nil =>
    intro init
    simp [String.append_empty]
  | cons a t ih =>
    intro init
    simp only [List.foldl_cons]
    rw [ih (step init a), ih (step "" a)]
    have hinit : step init a = init ++ step "" a := by
      have h := hstep init "" a
      rw [String.append_empty] at h
      exact h
    rw [hinit, String.append_assoc]

theorem foldl_congr_step {α β : Type} (f g : β → α → β) :
    ∀ (l : List α) (init : β), (∀ a i, f a i = g a i) → l.foldl f init = l.foldl g init := by
  intro l
  induction l with
  | nil =>
    intro init h
    rfl
  | cons a t ih =>
    intro init h
    simp only [List.foldl_cons]
    rw [h]
    exact ih _ h

theorem boardToAscii_decomposition (grid : GridL) :
    boardToAscii grid =
      ("   " ++ asciiLetterRow grid.length ++ "\n") ++
        strJoinMap (fun y => asciiRowLine grid grid.length y) (List.range grid.length) ++
        ("   " ++ asciiLetterRow grid.length) := by
  unfold boardToAscii
  dsimp only
  have hletters : ∀ init : String,
      (List.range grid.length).foldl
        (fun a i => a ++ String.singleton ((gtpLetters.take grid.length).toList.getD i 'A') ++ " ")
        init = init ++ asciiLetterRow grid.length := by
    intro init
    exact foldl_shift _ (fun a b i => by simp only [String.append_assoc]) _ init
  have hcells : ∀ (y : Nat) (init : String),
      (List.range grid.length).foldl (fun b x => b ++ asciiCell (cellAt grid x y)) init =
        init ++ asciiCells grid grid.length y := by
    intro y init
    exact foldl_shift _ (fun a b i => by simp only [String.append_assoc]) _ init
  have hrowstep : ∀ (a : String) (y : Nat),
      ((List.range grid.length).foldl (fun b x => b ++ asciiCell (cellAt grid x y))
          (a ++ (if grid.length - y < 10 then " " else "") ++ Nat.repr (grid.length - y) ++ " ")) ++
        Nat.repr (grid.length - y) ++ "\n" = a ++ asciiRowLine grid grid.length y := by
    intro a y
    rw [hcells y]
    unfold asciiRowLine
    simp only [String.append_assoc]
  have hrows : ∀ init : String,
      (List.range grid.length).foldl
        (fun a y =>
          ((List.range grid.length).foldl (fun b x => b ++ asciiCell (cellAt grid x y))
              (a ++ (if grid.length - y < 10 then " " else "") ++
                Nat.repr (grid.length - y) ++ " ")) ++
            Nat.repr (grid.length - y) ++ "\n")
        init =
        init ++ strJoinMap (fun y => asciiRowLine grid grid.length y)
          (List.range grid.length) := by
    intro init
    rw [foldl_congr_step _ (fun a y => a ++ asciiRowLine grid grid.length y) _ init hrowstep]
    exact foldl_strJoinMap _ _ init
  rw [hletters, hrows, hletters]
  simp only [String.append_assoc]

/-- C6 (amended): every textual rendering draws its column letters from the
"I"-skipping alphabet; `boardToAscii` numbers grid row `y` as `N - y` at both
ends of its line for EVERY board side `N`; but `toGtpCoordinate` always
renders the row of an in-range coordinate as `19 - y` (the fixed engine
size), which equals `N - y` only when `N = 19`. -/
theorem rendering_conventions :
    ('I' ∉ gtpLetters.toList) ∧
    (∀ size : Nat, 'I' ∉ (gtpLetters.take size).toList) ∧
    (∀ grid : GridL,
      boardToAscii grid =
        ("   " ++ asciiLetterRow grid.length ++ "\n") ++
          strJoinMap (fun y => asciiRowLine grid grid.length y) (List.range grid.length) ++
          ("   " ++ asciiLetterRow grid.length)) ∧
    (∀ grid : GridL, ∀ y : Nat, ∃ pad cells : String, (pad = " " ∨ pad = "") ∧
      asciiRowLine grid grid.length y =
        pad ++ Nat.repr (grid.length - y) ++ " " ++ cells ++
          Nat.repr (grid.length - y) ++ "\n") ∧
    (∀ a b : Fin 19,
      toGtpCoordinate ((a.val : Nat) : Int) ((b.val : Nat) : Int) =
        String.singleton (gtpLetters.toList.getD a.val 'A') ++
          toString ((19 : Int) - ((b.val : Nat) : Int))) := by
  refine ⟨gtpLetters_no_I, gtpLetters_take_no_I, boardToAscii_decomposition, ?_, by decide⟩
  intro grid y
  by_cases h : grid.length - y < 10
  · exact ⟨" ", asciiCells grid grid.length y, Or.inl rfl, by rw [asciiRowLine, if_pos h]⟩
  · exact ⟨"", asciiCells grid grid.length y, Or.inr rfl, by rw [asciiRowLine, if_neg h]⟩

/-- C6 witness: the decomposition instantiated on a concrete 2×2 board. -/
theorem rendering_conventions_witness :
    boardToAscii [[EMPTY, BLACK], [WHITE, EMPTY]] =
      ("   " ++ asciiLetterRow 2 ++ "\n") ++
        strJoinMap (fun y => asciiRowLine [[EMPTY, BLACK], [WHITE, EMPTY]] 2 y)
          (List.range 2) ++
        ("   " ++ asciiLetterRow 2) :=
  rendering_conventions.2.2.1 [[EMPTY, BLACK], [WHITE, EMPTY]]

/-- C6 counterexample: the claim requires the rendered row number of grid row
`y` on a board of side `N` to be `N - y` for every `N`; on a 5×5 board the
claimed rendering of (0,0) would be "A5", but `toGtpCoordinate 0 0` is "A19". -/
theorem toGtpCoordinate_row_not_size_relative :
    toGtpCoordinate 0 0 = "A19" ∧
    String.singleton (gtpLetters.toList.getD 0 'A') ++ Nat.repr ((5 : Nat) - 0) = "A5" ∧
    ("A19" : String) ≠ "A5" :=
  ⟨by decide, by decide, by decide⟩

/-! ### Influence-estimator lemmas -/

theorem getD_replicate {α : Type} (n i : Nat) (a d : α) :
    (List.replicate n a).getD i d = if i < n then a else d := by
  induction n generalizing i with
  | zero =>
    simp [List.replicate]
  | succ n ih =>
    cases i with
    | zero => simp [List.replicate]
    | succ i =>
      simp only [List.replicate, List.getD_cons_succ, ih, Nat.succ_lt_succ_iff]

theorem cellAt_createEmptyGrid (n x y : Nat) : cellAt (createEmptyGrid n) x y = EMPTY := by
  unfold cellAt createEmptyGrid
  rw [getD_replicate]
  by_cases hy : y < n
  · rw [if_pos hy, getD_replicate]
    by_cases hx : x < n
    · rw [if_pos hx]
    · rw [if_neg hx]
  · rw [if_neg hy]
    rfl

theorem stonesOf_eq_nil (grid : GridL)
    (hall : ∀ y x : Nat, cellAt grid x y = EMPTY) : stonesOf grid = [] := by
  unfold stonesOf
  dsimp only
  rw [List.flatMap_eq_nil_iff]
  intro y hy
  rw [List.flatMap_eq_nil_iff]
  intro x hx
  rw [hall y x]
  simp

/-- C9: on a grid containing no stones the stone list of the influence estimator is
empty, the summed score of every point is exactly zero (for ANY weight function,
in particular the exponential-decay weight of the source), and neither threshold is
met: the result is blackArea = 0, whiteArea = 0. -/
theorem calculateInfluence_empty (w : Nat × Nat → Nat × Nat → ℚ) (grid : GridL)
    (hall : ∀ y x : Nat, cellAt grid x y = EMPTY) :
    stonesOf grid = [] ∧
    (∀ p : Nat × Nat, influenceValue w (stonesOf grid) p = 0) ∧
    calculateInfluenceHeuristic w grid = (0, 0) := by
  have hstones := stonesOf_eq_nil grid hall
  refine ⟨hstones, ?_, ?_⟩
  · intro p
    rw [hstones]
    rfl
  · unfold calculateInfluenceHeuristic
    dsimp only
    rw [hstones]
    have hfalse1 : ∀ p : Nat × Nat, decide ((1 : ℚ) / 2 < influenceValue w [] p) = false := by
      intro p
      have hv : influenceValue w [] p = 0 := rfl
      rw [hv]
      exact decide_eq_false (by norm_num)
    have hfalse2 : ∀ p : Nat × Nat,
        decide (influenceValue w [] p < -(1 : ℚ) / 2) = false := by
      intro p
      have hv : influenceValue w [] p = 0 := rfl
      rw [hv]
      exact decide_eq_false (by norm_num)
    rw [Prod.ext_iff]
    constructor
    · exact List.countP_eq_zero.mpr
        (fun p _ => by rw [hfalse1 p]; exact Bool.false_ne_true)
    · exact List.countP_eq_zero.mpr
        (fun p _ => by rw [hfalse2 p]; exact Bool.false_ne_true)

/-- C9 witness: the empty 5×5 board, with an arbitrary concrete weight. -/
theorem calculateInfluence_empty_witness :
    stonesOf (createEmptyGrid 5) = [] ∧
    (∀ p : Nat × Nat, influenceValue (fun _ _ => 0) (stonesOf (createEmptyGrid 5)) p = 0) ∧
    calculateInfluenceHeuristic (fun _ _ => 0) (createEmptyGrid 5) = (0, 0) :=
  calculateInfluence_empty (fun _ _ => 0) (createEmptyGrid 5)
    (fun y x => cellAt_createEmptyGrid 5 x y)

/-! ### Shape-matcher lemmas -/

theorem addFound_nodup (found : List String) (s : String) (h : found.Nodup) :
    (addFound found s).Nodup := by
  unfold addFound
  split_ifs with hmem
  · exact h
  · simp [List.nodup_append, h, hmem]

theorem mem_addFound {found : List String} {s t : String} (h : t ∈ addFound found s) :
    t ∈ found ∨ t = s := by
  unfold addFound at h
  split_ifs at h with hmem
  · exact Or.inl h
  · rcases List.mem_append.mp h with h | h
    · exact Or.inl h
    · exact Or.inr (List.mem_singleton.mp h)

theorem foldl_addOnly {α : Type} (P : String → Prop) (step : List String → α → List String)
    (l : List α)
    (hmem : ∀ (acc : List String), ∀ a ∈ l, ∀ s ∈ step acc a, s ∈ acc ∨ P s)
    (hnd : ∀ (acc : List String), ∀ a ∈ l, acc.Nodup → (step acc a).Nodup) :
    ∀ (acc : List String),
      (∀ s ∈ l.foldl step acc, s ∈ acc ∨ P s) ∧ (acc.Nodup → (l.foldl step acc).Nodup) := by
  induction l with
  | nil =>
    intro acc
    exact ⟨fun s hs => Or.inl hs, fun h => h⟩
  | cons a t ih =>
    intro acc
    have iht := ih
      (fun acc b hb s hs => hmem acc b (List.mem_cons_of_mem a hb) s hs)
      (fun acc b hb hacc => hnd acc b (List.mem_cons_of_mem a hb) hacc)
    constructor
    · intro s hs
      rcases (iht (step acc a)).1 s hs with h | h
      · exact hmem acc a (List.mem_cons_self a t) s h
      · exact Or.inr h
    · intro hacc
      exact (iht (step acc a)).2 (hnd acc a (List.mem_cons_self a t) hacc)

theorem mem_windowRange {size psize i : Nat} (h : i ∈ windowRange size psize) :
    psize ≤ size ∧ i ≤ size - psize := by
  unfold windowRange at h
  split_ifs at h with hle
  · rw [List.mem_range] at h
    omega
  · cases h

theorem scanPattern_sound (numG : List (List Int)) (size : Nat) (pat : ShapePattern)
    (pGrid : List (List Int)) (colorSign : Int) :
    ∀ (found : List String),
      (∀ s ∈ scanPattern numG size pat pGrid colorSign found,
        s ∈ found ∨ ∃ x y : Nat, pat.size ≤ size ∧ x ≤ size - pat.size ∧
          y ≤ size - pat.size ∧ matchesAt pGrid numG x y pat.size = true ∧
          s = findingString pat colorSign x y) ∧
      (found.Nodup → (scanPattern numG size pat pGrid colorSign found).Nodup) := by
  intro found
  unfold scanPattern
  refine foldl_addOnly _ _ (windowRange size pat.size) ?_ ?_ found
  · intro acc y hy s hs
    have hyb := mem_windowRange hy
    have hinner := foldl_addOnly
      (fun s => ∃ x yy : Nat, pat.size ≤ size ∧ x ≤ size - pat.size ∧
        yy ≤ size - pat.size ∧ matchesAt pGrid numG x yy pat.size = true ∧
        s = findingString pat colorSign x yy)
      (fun acc2 x =>
        if matchesAt pGrid numG x y pat.size then
          addFound acc2 (findingString pat colorSign x y)
        else acc2)
      (windowRange size pat.size) ?_ ?_ acc
    · exact (hinner).1 s hs
    · intro acc2 x hx t ht
      dsimp only at ht
      have hxb := mem_windowRange hx
      by_cases hm : matchesAt pGrid numG x y pat.size = true
      · rw [if_pos hm] at ht
        rcases mem_addFound ht with h | h
        · exact Or.inl h
        · exact Or.inr ⟨x, y, hyb.1, hxb.2, hyb.2, hm, h⟩
      · rw [if_neg hm] at ht
        exact Or.inl ht
    · intro acc2 x hx hacc2
      dsimp only
      by_cases hm : matchesAt pGrid numG x y pat.size = true
      · rw [if_pos hm]
        exact addFound_nodup acc2 _ hacc2
      · rw [if_neg hm]
        exact hacc2
  · intro acc y hy hacc
    exact (foldl_addOnly
      (fun s => ∃ x yy : Nat, pat.size ≤ size ∧ x ≤ size - pat.size ∧
        yy ≤ size - pat.size ∧ matchesAt pGrid numG x yy pat.size = true ∧
        s = findingString pat colorSign x yy)
      (fun acc2 x =>
        if matchesAt pGrid numG x y pat.size then
          addFound acc2 (findingString pat colorSign x y)
        else acc2)
      (windowRange size pat.size)
      (fun acc2 x hx t ht => by
        dsimp only at ht
        by_cases hm : matchesAt pGrid numG x y pat.size = true
        · rw [if_pos hm] at ht
          rcases mem_addFound ht with h | h
          · exact Or.inl h
          · exact Or.inr ⟨x, y, (mem_windowRange hy).1, (mem_windowRange hx).2,
              (mem_windowRange hy).2, hm, h⟩
        · rw [if_neg hm] at ht
          exact Or.inl ht)
      (fun acc2 x hx hacc2 => by
        dsimp only
        by_cases hm : matchesAt pGrid numG x y pat.size = true
        · rw [if_pos hm]
          exact addFound_nodup acc2 _ hacc2
        · rw [if_neg hm]
          exact hacc2)
      acc).2 hacc

theorem scanRotations_sound (numG : List (List Int)) (size : Nat) (pat : ShapePattern)
    (pGrid0 : List (List Int)) (colorSign : Int) :
    ∀ (found : List String),
      (∀ s ∈ scanRotations numG size pat pGrid0 colorSign found,
        s ∈ found ∨ ∃ k, 1 ≤ k ∧ k ≤ 4 ∧ ∃ x y : Nat, pat.size ≤ size ∧
          x ≤ size - pat.size ∧ y ≤ size - pat.size ∧
          matchesAt (rotIter k pGrid0) numG x y pat.size = true ∧
          s = findingString pat colorSign x y) ∧
      (found.Nodup → (scanRotations numG size pat pGrid0 colorSign found).Nodup) := by
  intro found
  unfold scanRotations
  dsimp only
  constructor
  · intro s hs
    rcases (scanPattern_sound numG size pat (rotIter 4 pGrid0) colorSign _).1 s hs
      with hs3 | hP
    · rcases (scanPattern_sound numG size pat (rotIter 3 pGrid0) colorSign _).1 s hs3
        with hs2 | hP
      · rcases (scanPattern_sound numG size pat (rotIter 2 pGrid0) colorSign _).1 s hs2
          with hs1 | hP
        · rcases (scanPattern_sound numG size pat (rotIter 1 pGrid0) colorSign _).1 s hs1
            with hs0 | hP
          · exact Or.inl hs0
          · obtain ⟨x, y, h⟩ := hP
            exact Or.inr ⟨1, by omega, by omega, x, y, h⟩
        · obtain ⟨x, y, h⟩ := hP
          exact Or.inr ⟨2, by omega, by omega, x, y, h⟩
      · obtain ⟨x, y, h⟩ := hP
        exact Or.inr ⟨3, by omega, by omega, x, y, h⟩
    · obtain ⟨x, y, h⟩ := hP
      exact Or.inr ⟨4, by omega, by omega, x, y, h⟩
  · intro hfound
    exact (scanPattern_sound numG size pat (rotIter 4 pGrid0) colorSign _).2
      ((scanPattern_sound numG size pat (rotIter 3 pGrid0) colorSign _).2
        ((scanPattern_sound numG size pat (rotIter 2 pGrid0) colorSign _).2
          ((scanPattern_sound numG size pat (rotIter 1 pGrid0) colorSign _).2 hfound)))

/-- C7 (amended): every finding of the shape matcher is anchored at the
ORIGIN of the match window — the string records `toGtpCoordinate(x, y)` of the
offset at which the rotated, color-assigned template matched — and identical
findings appear exactly once (the result list has no duplicates). -/
theorem findShapes_anchor_origin_and_dedup (grid : GridL) :
    (findShapesHeuristic grid).Nodup ∧
    (∀ s ∈ findShapesHeuristic grid,
      ∃ pat ∈ PATTERNS, ∃ colorSign ∈ ([1, -1] : List Int), ∃ k, 1 ≤ k ∧ k ≤ 4 ∧
        ∃ x y : Nat, pat.size ≤ grid.length ∧ x ≤ grid.length - pat.size ∧
          y ≤ grid.length - pat.size ∧
          matchesAt (rotIter k (assignColor colorSign pat.grid)) (numGridOf grid) x y
            pat.size = true ∧
          s = findingString pat colorSign x y) := by
  have hfold := foldl_addOnly
    (fun s => ∃ pat ∈ PATTERNS, ∃ colorSign ∈ ([1, -1] : List Int), ∃ k, 1 ≤ k ∧ k ≤ 4 ∧
      ∃ x y : Nat, pat.size ≤ grid.length ∧ x ≤ grid.length - pat.size ∧
        y ≤ grid.length - pat.size ∧
        matchesAt (rotIter k (assignColor colorSign pat.grid)) (numGridOf grid) x y
          pat.size = true ∧
        s = findingString pat colorSign x y)
    (fun found pat =>
      scanRotations (numGridOf grid) grid.length pat (assignColor (-1) pat.grid) (-1)
        (scanRotations (numGridOf grid) grid.length pat (assignColor 1 pat.grid) 1 found))
    PATTERNS ?_ ?_ []
  · constructor
    · exact hfold.2 List.nodup_nil
    · intro s hs
      rcases hfold.1 s hs with h | h
      · cases h
      · exact h
  · intro acc pat hpat s hs
    rcases (scanRotations_sound (numGridOf grid) grid.length pat
        (assignColor (-1) pat.grid) (-1) _).1 s hs with hs1 | hP
    · rcases (scanRotations_sound (numGridOf grid) grid.length pat
          (assignColor 1 pat.grid) 1 _).1 s hs1 with hs0 | hP
      · exact Or.inl hs0
      · obtain ⟨k, hk1, hk4, x, y, h⟩ := hP
        exact Or.inr ⟨pat, hpat, 1, by simp, k, hk1, hk4, x, y, h⟩
    · obtain ⟨k, hk1, hk4, x, y, h⟩ := hP
      exact Or.inr ⟨pat, hpat, -1, by simp, k, hk1, hk4, x, y, h⟩
  · intro acc pat hpat hacc
    exact (scanRotations_sound (numGridOf grid) grid.length pat
        (assignColor (-1) pat.grid) (-1) _).2
      ((scanRotations_sound (numGridOf grid) grid.length pat
          (assignColor 1 pat.grid) 1 _).2 hacc)

/-- C7 witness: on the 3×3 ponnuki board the single finding of the matcher is
anchored at a window origin of an actual match. -/
theorem findShapes_anchor_origin_and_dedup_witness :
    (findShapesHeuristic ponnukiGrid3).Nodup ∧
    (∃ pat ∈ PATTERNS, ∃ colorSign ∈ ([1, -1] : List Int), ∃ k, 1 ≤ k ∧ k ≤ 4 ∧
      ∃ x y : Nat, pat.size ≤ ponnukiGrid3.length ∧ x ≤ ponnukiGrid3.length - pat.size ∧
        y ≤ ponnukiGrid3.length - pat.size ∧
        matchesAt (rotIter k (assignColor colorSign pat.grid)) (numGridOf ponnukiGrid3) x y
          pat.size = true ∧
        "GOOD: Black Ponnuki at A19" = findingString pat colorSign x y) :=
  ⟨(findShapes_anchor_origin_and_dedup ponnukiGrid3).1,
   (findShapes_anchor_origin_and_dedup ponnukiGrid3).2 "GOOD: Black Ponnuki at A19"
     (by decide)⟩

/-- C7 counterexample: the claim says the anchor is the first point of the
rotated, color-assigned template with a non-empty value.  For the black
Ponnuki (invariant under rotation) that first point is the offset (1,0), so a
match with window origin (0,0) would be anchored "B19"; the only
finding on the 3×3 ponnuki board is anchored "A19", the window origin. -/
theorem findShapes_anchor_counterexample :
    findShapesHeuristic ponnukiGrid3 = ["GOOD: Black Ponnuki at A19"] ∧
    rotateGrid (assignColor 1 [[0, 1, 0], [1, 0, 1], [0, 1, 0]]) =
      assignColor 1 [[0, 1, 0], [1, 0, 1], [0, 1, 0]] ∧
    firstNonEmptyOffset (assignColor 1 [[0, 1, 0], [1, 0, 1], [0, 1, 0]]) 3 = some (1, 0) ∧
    toGtpCoordinate 0 0 = "A19" ∧
    toGtpCoordinate (0 + 1) (0 + 0) = "B19" ∧
    ("A19" : String) ≠ "B19" :=
  ⟨by decide, by decide, by decide, by decide, by decide, by decide⟩

/-! ### Safety-heuristic lemmas -/

theorem mem_allPositions (p : Pos) : p ∈ allPositions := by
  unfold allPositions
  rw [List.mem_flatMap]
  exact ⟨p.2, List.mem_finRange p.2, List.mem_map.mpr ⟨p.1, List.mem_finRange p.1, rfl⟩⟩

theorem mem_groupLibertiesFinset (g : Grid) (l : List Pos) (n : Pos) :
    n ∈ groupLibertiesFinset g l ↔ ∃ q ∈ l, n ∈ getNeighbors q ∧ g n = EMPTY := by
  unfold groupLibertiesFinset
  suffices h : ∀ (init : Finset Pos),
      (n ∈ l.foldl
          (fun ls q => ls ∪ ((getNeighbors q).filter (fun m => decide (g m = EMPTY))).toFinset)
          init ↔
        n ∈ init ∨ ∃ q ∈ l, n ∈ getNeighbors q ∧ g n = EMPTY) by
    rw [h ∅]
    simp
  induction l with
  | nil =>
    intro init
    simp
  | cons q t ih =>
    intro init
    simp only [List.foldl_cons]
    rw [ih (init ∪ ((getNeighbors q).filter (fun m => decide (g m = EMPTY))).toFinset)]
    simp only [Finset.mem_union, List.mem_toFinset, List.mem_filter, decide_eq_true_eq,
      List.mem_cons]
    constructor
    · rintro ((h | ⟨hn, he⟩) | ⟨r, hr, hn, he⟩)
      · exact Or.inl h
      · exact Or.inr ⟨q, Or.inl rfl, hn, he⟩
      · exact Or.inr ⟨r, Or.inr hr, hn, he⟩
    · rintro (h | ⟨r, hr | hr, hn, he⟩)
      · exact Or.inl (Or.inl h)
      · exact Or.inl (Or.inr ⟨hr ▸ hn, he⟩)
      · exact Or.inr ⟨r, hr, hn, he⟩

theorem groupLibertiesFinset_card (g : Grid) (p : Pos) (hne : g p ≠ EMPTY) :
    (groupLibertiesFinset g (checkLiberties g p.1 p.2 (g p)).group).card =
      libertyCount g p := by
  have hspec := checkLiberties_spec g p.1 p.2 (g p) hne rfl
  have hset : ↑(groupLibertiesFinset g (checkLiberties g p.1 p.2 (g p)).group) =
      libertySet g p := by
    ext n
    rw [Finset.mem_coe, mem_groupLibertiesFinset]
    unfold libertySet
    simp only [Set.mem_setOf_eq]
    constructor
    · rintro ⟨q, hq, hn, he⟩
      exact ⟨he, q, (hspec.2.1 q).mp hq, hn⟩
    · rintro ⟨he, q, hq, hn⟩
      exact ⟨q, (hspec.2.1 q).mpr hq, hn, he⟩
  unfold libertyCount
  rw [← hset, Set.ncard_coe_Finset]

theorem safetyStep_empty (g : Grid) (V : Finset Pos) (R : List String) (p : Pos)
    (h : g p = EMPTY) : safetyStep g (V, R) p = (V, R) := by
  unfold safetyStep
  rw [if_pos h]

theorem safetyStep_visited (g : Grid) (V : Finset Pos) (R : List String) (p : Pos)
    (h1 : g p ≠ EMPTY) (h2 : p ∈ V) : safetyStep g (V, R) p = (V, R) := by
  unfold safetyStep
  dsimp only
  rw [if_neg h1, if_pos h2]

theorem safetyStep_new (g : Grid) (V : Finset Pos) (R : List String) (p : Pos)
    (h1 : g p ≠ EMPTY) (h2 : p ∉ V) :
    safetyStep g (V, R) p =
      (if (groupLibertiesFinset g (checkLiberties g p.1 p.2 (g p)).group).card ≤ 2 then
        (V ∪ (checkLiberties g p.1 p.2 (g p)).group.toFinset,
          R ++ [dangerMsg (g p) ((checkLiberties g p.1 p.2 (g p)).group.headD p)
            (groupLibertiesFinset g (checkLiberties g p.1 p.2 (g p)).group).card])
      else (V ∪ (checkLiberties g p.1 p.2 (g p)).group.toFinset, R)) := by
  unfold safetyStep
  dsimp only
  rw [if_neg h1, if_neg h2]

theorem safetyFold_spec (g : Grid) :
    ∀ (todo done : List Pos) (V : Finset Pos) (R : List String) (anchors : List Pos),
      (∀ z : Pos, z ∈ V ↔ ∃ p ∈ done, g p ≠ EMPTY ∧ z ∈ componentSet g p) →
      R = anchors.map (fun q => dangerMsg (g q) q (libertyCount g q)) →
      anchors.Nodup →
      (∀ q ∈ anchors, g q ≠ EMPTY ∧ libertyCount g q ≤ 2) →
      (∀ q ∈ anchors, q ∈ V) →
      (∀ q1 ∈ anchors, ∀ q2 ∈ anchors, q1 ≠ q2 → q2 ∉ componentSet g q1) →
      (∀ p ∈ done, g p ≠ EMPTY → libertyCount g p ≤ 2 →
        ∃ q ∈ anchors, q ∈ componentSet g p) →
      ∃ anchors2 : List Pos,
        (todo.foldl (safetyStep g) (V, R)).2 =
          anchors2.map (fun q => dangerMsg (g q) q (libertyCount g q)) ∧
        anchors2.Nodup ∧
        (∀ q ∈ anchors2, g q ≠ EMPTY ∧ libertyCount g q ≤ 2) ∧
        (∀ q1 ∈ anchors2, ∀ q2 ∈ anchors2, q1 ≠ q2 → q2 ∉ componentSet g q1) ∧
        (∀ p : Pos, p ∈ done ∨ p ∈ todo → g p ≠ EMPTY → libertyCount g p ≤ 2 →
          ∃ q ∈ anchors2, q ∈ componentSet g p) := by
  intro todo
  induction todo with
  | nil =>
    intro done V R anchors hV hR hnd hprops hsub hdist hcompl
    refine ⟨anchors, hR, hnd, hprops, hdist, ?_⟩
    intro p hp hne hlib
    rcases hp with hp | hp
    · exact hcompl p hp hne hlib
    · cases hp
  | cons p todo2 ih =>
    intro done V R anchors hV hR hnd hprops hsub hdist hcompl
    rw [List.foldl_cons]
    by_cases hemp : g p = EMPTY
    · rw [safetyStep_empty g V R p hemp]
      obtain ⟨anchors2, h1, h2, h3, h4, h5⟩ := ih (done ++ [p]) V R anchors
        (by
          intro z
          rw [hV z]
          constructor
          · rintro ⟨r, hr, hrne, hz⟩
            exact ⟨r, List.mem_append.mpr (Or.inl hr), hrne, hz⟩
          · rintro ⟨r, hr, hrne, hz⟩
            rcases List.mem_append.mp hr with hr | hr
            · exact ⟨r, hr, hrne, hz⟩
            · rw [List.mem_singleton] at hr
              subst hr
              exact absurd hemp hrne)
        hR hnd hprops hsub hdist
        (by
          intro r hr hrne hrlib
          rcases List.mem_append.mp hr with hr | hr
          · exact hcompl r hr hrne hrlib
          · rw [List.mem_singleton] at hr
            subst hr
            exact absurd hemp hrne)
      refine ⟨anchors2, h1, h2, h3, h4, ?_⟩
      intro r hr
      refine h5 r ?_
      rcases hr with hr | hr
      · exact Or.inl (List.mem_append.mpr (Or.inl hr))
      · rcases List.mem_cons.mp hr with hr | hr
        · exact Or.inl (List.mem_append.mpr (Or.inr (hr ▸ List.mem_singleton_self p)))
        · exact Or.inr hr
    · by_cases hvis : p ∈ V
      · obtain ⟨pc, hpc, hpcne, hppc⟩ := (hV p).mp hvis
        have hcompeq : componentSet g p = componentSet g pc := componentSet_eq_of_mem hppc
        have hlibeq : libertyCount g p = libertyCount g pc := libertyCount_eq_of_mem hppc
        rw [safetyStep_visited g V R p hemp hvis]
        obtain ⟨anchors2, h1, h2, h3, h4, h5⟩ := ih (done ++ [p]) V R anchors
          (by
            intro z
            rw [hV z]
            constructor
            · rintro ⟨r, hr, hrne, hz⟩
              exact ⟨r, List.mem_append.mpr (Or.inl hr), hrne, hz⟩
            · rintro ⟨r, hr, hrne, hz⟩
              rcases List.mem_append.mp hr with hr | hr
              · exact ⟨r, hr, hrne, hz⟩
              · rw [List.mem_singleton] at hr
                subst hr
                exact ⟨pc, hpc, hpcne, hcompeq ▸ hz⟩)
          hR hnd hprops hsub hdist
          (by
            intro r hr hrne hrlib
            rcases List.mem_append.mp hr with hr | hr
            · exact hcompl r hr hrne hrlib
            · rw [List.mem_singleton] at hr
              subst hr
              obtain ⟨q, hq, hqc⟩ := hcompl pc hpc hpcne (hlibeq ▸ hrlib)
              exact ⟨q, hq, hcompeq ▸ hqc⟩)
        refine ⟨anchors2, h1, h2, h3, h4, ?_⟩
        intro r hr
        refine h5 r ?_
        rcases hr with hr | hr
        · exact Or.inl (List.mem_append.mpr (Or.inl hr))
        · rcases List.mem_cons.mp hr with hr | hr
          · exact Or.inl (List.mem_append.mpr (Or.inr (hr ▸ List.mem_singleton_self p)))
          · exact Or.inr hr
      · have hspec := checkLiberties_spec g p.1 p.2 (g p) hemp rfl
        have hcard := groupLibertiesFinset_card g p hemp
        have hhead : (checkLiberties g p.1 p.2 (g p)).group.headD p = p :=
          checkLiberties_headD g p.1 p.2 (g p) p
        have hVchar : ∀ z : Pos,
            z ∈ V ∪ (checkLiberties g p.1 p.2 (g p)).group.toFinset ↔
              ∃ r ∈ done ++ [p], g r ≠ EMPTY ∧ z ∈ componentSet g r := by
          intro z
          rw [Finset.mem_union, List.mem_toFinset, hV z]
          constructor
          · rintro (⟨r, hr, hrne, hz⟩ | hz)
            · exact ⟨r, List.mem_append.mpr (Or.inl hr), hrne, hz⟩
            · exact ⟨p, List.mem_append.mpr (Or.inr (List.mem_singleton_self p)), hemp,
                (hspec.2.1 z).mp hz⟩
          · rintro ⟨r, hr, hrne, hz⟩
            rcases List.mem_append.mp hr with hr | hr
            · exact Or.inl ⟨r, hr, hrne, hz⟩
            · rw [List.mem_singleton] at hr
              subst hr
              exact Or.inr ((hspec.2.1 z).mpr hz)
        have hanchornew : ∀ q ∈ anchors, q ≠ p := by
          intro q hq hqp
          exact hvis (hqp ▸ hsub q hq)
        rw [safetyStep_new g V R p hemp hvis]
        by_cases hlow : (groupLibertiesFinset g (checkLiberties g p.1 p.2 (g p)).group).card ≤ 2
        · rw [if_pos hlow]
          have hlowp : libertyCount g p ≤ 2 := hcard ▸ hlow
          obtain ⟨anchors2, h1, h2, h3, h4, h5⟩ := ih (done ++ [p])
            (V ∪ (checkLiberties g p.1 p.2 (g p)).group.toFinset)
            (R ++ [dangerMsg (g p) ((checkLiberties g p.1 p.2 (g p)).group.headD p)
              (groupLibertiesFinset g (checkLiberties g p.1 p.2 (g p)).group).card])
            (anchors ++ [p])
            hVchar
            (by
              rw [hR, hhead, hcard, List.map_append]
              rfl)
            (by
              simp only [List.nodup_append, List.nodup_cons, List.not_mem_nil,
                not_false_iff, List.nodup_nil, and_true, true_and]
              constructor
              · exact hnd
              · intro q hq hq2
                rw [List.mem_singleton] at hq2
                exact hanchornew q hq hq2)
            (by
              intro q hq
              rcases List.mem_append.mp hq with hq | hq
              · exact hprops q hq
              · rw [List.mem_singleton] at hq
                subst hq
                exact ⟨hemp, hlowp⟩)
            (by
              intro q hq
              rcases List.mem_append.mp hq with hq | hq
              · exact Finset.mem_union_left _ (hsub q hq)
              · rw [List.mem_singleton] at hq
                subst hq
                exact Finset.mem_union_right _
                  (List.mem_toFinset.mpr ((hspec.2.1 q).mpr Relation.ReflTransGen.refl)))
            (by
              intro q1 hq1 q2 hq2 hne12 hq21
              rcases List.mem_append.mp hq1 with hq1m | hq1m
              · rcases List.mem_append.mp hq2 with hq2m | hq2m
                · exact hdist q1 hq1m q2 hq2m hne12 hq21
                · rw [List.mem_singleton] at hq2m
                  subst hq2m
                  obtain ⟨r, hr, hrne, hq1r⟩ := (hV q1).mp (hsub q1 hq1m)
                  have : q2 ∈ componentSet g r :=
                    (componentSet_eq_of_mem hq1r) ▸ hq21
                  exact hvis ((hV q2).mpr ⟨r, hr, hrne, this⟩)
              · rw [List.mem_singleton] at hq1m
                subst hq1m
                rcases List.mem_append.mp hq2 with hq2m | hq2m
                · have hq12 : q1 ∈ componentSet g q2 := by
                    have := reaches_symm (rfl : g q1 = g q1) hq21
                    have hcol : g q2 = g q1 := componentSet_color hq21
                    unfold componentSet at *
                    rw [Set.mem_setOf_eq] at *
                    rw [hcol]
                    exact this
                  obtain ⟨r, hr, hrne, hq2r⟩ := (hV q2).mp (hsub q2 hq2m)
                  have : q1 ∈ componentSet g r :=
                    (componentSet_eq_of_mem hq2r) ▸ hq12
                  exact hvis ((hV q1).mpr ⟨r, hr, hrne, this⟩)
                · rw [List.mem_singleton] at hq2m
                  exact hne12 (hq2m ▸ rfl)
            )
            (by
              intro r hr hrne hrlib
              rcases List.mem_append.mp hr with hr | hr
              · obtain ⟨q, hq, hqc⟩ := hcompl r hr hrne hrlib
                exact ⟨q, List.mem_append.mpr (Or.inl hq), hqc⟩
              · rw [List.mem_singleton] at hr
                rw [hr]
                exact ⟨p, List.mem_append.mpr (Or.inr (List.mem_singleton_self p)),
                  mem_componentSet_self g p⟩)
          refine ⟨anchors2, h1, h2, h3, h4, ?_⟩
          intro r hr
          refine h5 r ?_
          rcases hr with hr | hr
          · exact Or.inl (List.mem_append.mpr (Or.inl hr))
          · rcases List.mem_cons.mp hr with hr | hr
            · exact Or.inl (List.mem_append.mpr (Or.inr (hr ▸ List.mem_singleton_self p)))
            · exact Or.inr hr
        · rw [if_neg hlow]
          have hhighp : ¬ libertyCount g p ≤ 2 := hcard ▸ hlow
          obtain ⟨anchors2, h1, h2, h3, h4, h5⟩ := ih (done ++ [p])
            (V ∪ (checkLiberties g p.1 p.2 (g p)).group.toFinset) R anchors
            hVchar hR hnd hprops
            (fun q hq => Finset.mem_union_left _ (hsub q hq))
            hdist
            (by
              intro r hr hrne hrlib
              rcases List.mem_append.mp hr with hr | hr
              · exact hcompl r hr hrne hrlib
              · rw [List.mem_singleton] at hr
                subst hr
                exact absurd hrlib hhighp)
          refine ⟨anchors2, h1, h2, h3, h4, ?_⟩
          intro r hr
          refine h5 r ?_
          rcases hr with hr | hr
          · exact Or.inl (List.mem_append.mpr (Or.inl hr))
          · rcases List.mem_cons.mp hr with hr | hr
            · exact Or.inl (List.mem_append.mpr (Or.inr (hr ▸ List.mem_singleton_self p)))
            · exact Or.inr hr

/-- C8 (amended to the fixed 19×19 board size of the engine): the
report consists of one danger line per anchor, where the anchors are distinct
stones of pairwise-distinct maximal groups, the true liberty count of each anchored
group (number of distinct EMPTY points adjacent to its stones) is at most 2,
every maximal group with at most 2 liberties has exactly one anchor among its
stones, and the liberty count is constant across a group — so a maximal group
is reported iff its liberty count is ≤ 2, and at most once. -/
theorem analyzeSafety_spec (g : Grid) :
    ∃ anchors : List Pos,
      analyzeSafetyHeuristic g =
        anchors.map (fun q => dangerMsg (g q) q (libertyCount g q)) ∧
      anchors.Nodup ∧
      (∀ q ∈ anchors, g q ≠ EMPTY ∧ libertyCount g q ≤ 2) ∧
      (∀ q1 ∈ anchors, ∀ q2 ∈ anchors, q1 ≠ q2 → q2 ∉ componentSet g q1) ∧
      (∀ p : Pos, g p ≠ EMPTY → libertyCount g p ≤ 2 →
        ∃ q ∈ anchors, q ∈ componentSet g p) ∧
      (∀ p q : Pos, q ∈ componentSet g p → libertyCount g q = libertyCount g p) := by
  obtain ⟨anchors2, h1, h2, h3, h4, h5⟩ := safetyFold_spec g allPositions [] ∅ [] []
    (by simp)
    rfl
    List.nodup_nil
    (by simp)
    (by simp)
    (by simp)
    (by simp)
  refine ⟨anchors2, h1, h2, h3, h4, ?_, fun p q hq => libertyCount_eq_of_mem hq⟩
  intro p hne hlib
  exact h5 p (Or.inr (mem_allPositions p)) hne hlib

/-- C8 witness: the specification instantiated on the corner-stone board. -/
theorem analyzeSafety_spec_witness :
    ∃ anchors : List Pos,
      analyzeSafetyHeuristic cornerStoneGrid =
        anchors.map (fun q => dangerMsg (cornerStoneGrid q) q (libertyCount cornerStoneGrid q)) ∧
      anchors.Nodup ∧
      (∀ q ∈ anchors, cornerStoneGrid q ≠ EMPTY ∧ libertyCount cornerStoneGrid q ≤ 2) ∧
      (∀ q1 ∈ anchors, ∀ q2 ∈ anchors, q1 ≠ q2 → q2 ∉ componentSet cornerStoneGrid q1) ∧
      (∀ p : Pos, cornerStoneGrid p ≠ EMPTY → libertyCount cornerStoneGrid p ≤ 2 →
        ∃ q ∈ anchors, q ∈ componentSet cornerStoneGrid p) ∧
      (∀ p q : Pos, q ∈ componentSet cornerStoneGrid p →
        libertyCount cornerStoneGrid q = libertyCount cornerStoneGrid p) :=
  analyzeSafety_spec cornerStoneGrid

/-- C8 counterexample: the claim quantifies over every grid, but on a 5×5 grid
with a stone at (0,4) the scan reaches that stone, its flood fill reads the
out-of-range row 5 (neighbors are produced with the default size 19), and the
whole heuristic throws instead of producing a report. -/
theorem analyzeSafety_small_board_throws :
    edgeStoneGrid5.length = 5 ∧ cellAt edgeStoneGrid5 0 4 = BLACK ∧
      analyzeSafetyHeuristicDyn edgeStoneGrid5 = Except.error "TypeError" :=
  ⟨rfl, rfl, rfl⟩

end Komi
